import Mathlib

/-!
Shallow embedding of the CHIP-8 interpreter core from `src/lib.rs`
(crate `chip-8-rust`).

Modelling conventions:
* Machine integers (`u8`, `u16`) are embedded as `Nat` with explicit
  `% 256` / `% 65536` where the Rust code wraps.  Plain `+=` / `-=` on
  integers embeds release-mode wrapping semantics.
* Fixed arrays (`ram`, `stack`, `frame_buffer`, registers, keypads) are
  embedded as total functions `Nat → _`; every indexing operation whose
  index is not statically a nibble is bounds-checked, and a failed check
  (a Rust out-of-bounds indexing or slicing panic) is embedded as
  `Except.error Fault.outOfBounds`.  The `panic!` in
  `panic_for_invalid_opcode` is embedded as `Fault.invalidOpcode`.
  Variable-register indices reaching the register file are always opcode
  nibbles (`< 16`), so register accesses are embedded unchecked.
* The injected random generator (`rand::Rng`) is embedded as a stream
  `rngStream : Nat → Nat` together with a draw counter; `random::<u8>()`
  reads `rngStream rngCounter % 256` and advances the counter.
-/

/-- Emulator flavour selected at construction (`enum EmulatorType`). -/
inductive EmulatorType where
  | CosmacVip : EmulatorType
  | Chip48 : EmulatorType
deriving DecidableEq

/-- State of one keypad key (`enum KeyState`). -/
inductive KeyState where
  | Up : KeyState
  | Down : KeyState
deriving DecidableEq

/-- Keys of the 16-key keypad (`enum Chip8Key`). -/
inductive Chip8Key where
  | Zero | One | Two | Three | Four | Five | Six | Seven
  | Eight | Nine | A | B | C | D | E | F
deriving DecidableEq

/-- Index of a key in the keypad arrays (`Chip8Key::key_index`). -/
def Chip8Key.keyIndex : Chip8Key → Nat
  | .Zero => 0
  | .One => 1
  | .Two => 2
  | .Three => 3
  | .Four => 4
  | .Five => 5
  | .Six => 6
  | .Seven => 7
  | .Eight => 8
  | .Nine => 9
  | .A => 10
  | .B => 11
  | .C => 12
  | .D => 13
  | .E => 14
  | .F => 15

/-- Faults: embeds the panics the Rust interpreter can raise.
`invalidOpcode` carries the offending opcode (`panic_for_invalid_opcode`);
`outOfBounds` embeds an out-of-bounds array index or slice panic. -/
inductive Fault where
  | invalidOpcode : Nat → Fault
  | outOfBounds : Fault
deriving DecidableEq

/-- Pointwise update of a `Nat`-indexed map (a single array-cell write). -/
def upd {α : Type} (f : Nat → α) (i : Nat) (v : α) : Nat → α :=
  fun j => if j = i then v else f j

/-- DISPLAY_WIDTH. -/
def DISPLAY_WIDTH : Nat := 64

/-- DISPLAY_HEIGHT. -/
def DISPLAY_HEIGHT : Nat := 32

/-- PROGRAM_START_ADDRESS. -/
def PROGRAM_START_ADDRESS : Nat := 0x200

/-- MEMORY_SIZE. -/
def MEMORY_SIZE : Nat := 4096

/-- STACK_SIZE. -/
def STACK_SIZE : Nat := 16

/-- VARIABLE_REGISTER_COUNT. -/
def VARIABLE_REGISTER_COUNT : Nat := 16

/-- NUM_KEYS. -/
def NUM_KEYS : Nat := 16

/-- FONT_START_ADDRESS. -/
def FONT_START_ADDRESS : Nat := 0x50

/-- The built-in 80-byte font table (`const FONT`). -/
def FONT : List Nat :=
  [0xF0, 0x90, 0x90, 0x90, 0xF0,
   0x20, 0x60, 0x20, 0x20, 0x70,
   0xF0, 0x10, 0xF0, 0x80, 0xF0,
   0xF0, 0x10, 0xF0, 0x10, 0xF0,
   0x90, 0x90, 0xF0, 0x10, 0x10,
   0xF0, 0x80, 0xF0, 0x10, 0xF0,
   0xF0, 0x80, 0xF0, 0x90, 0xF0,
   0xF0, 0x10, 0x20, 0x40, 0x40,
   0xF0, 0x90, 0xF0, 0x90, 0xF0,
   0xF0, 0x90, 0xF0, 0x10, 0xF0,
   0xF0, 0x90, 0xF0, 0x90, 0x90,
   0xE0, 0x90, 0xE0, 0x90, 0xE0,
   0xF0, 0x80, 0x80, 0x80, 0xF0,
   0xE0, 0x90, 0x90, 0x90, 0xE0,
   0xF0, 0x80, 0xF0, 0x80, 0xF0,
   0xF0, 0x80, 0xF0, 0x80, 0x80]

/-- The interpreter state (`struct Chip8<R: Rng>`). -/
structure Chip8 where
  ram : Nat → Nat
  frameBuffer : Nat → Nat
  stack : Nat → Nat
  stackPointer : Nat
  delayTimer : Nat
  soundTimer : Nat
  programCounter : Nat
  indexRegister : Nat
  variableRegisters : Nat → Nat
  emulatorType : EmulatorType
  rngStream : Nat → Nat
  rngCounter : Nat
  keypadState : Nat → KeyState
  previousKeypadState : Nat → KeyState

/-- Constructor `Chip8::new`: zeroed state, program counter at 0x200,
font copied to ram at 0x50..0xA0. -/
def chip8New (emulatorType : EmulatorType) (rngStream : Nat → Nat) : Chip8 :=
  { ram := fun i =>
      if FONT_START_ADDRESS ≤ i ∧ i < FONT_START_ADDRESS + FONT.length
      then FONT.getD (i - FONT_START_ADDRESS) 0 else 0
    frameBuffer := fun _ => 0
    stack := fun _ => 0
    stackPointer := 0
    delayTimer := 0
    soundTimer := 0
    programCounter := PROGRAM_START_ADDRESS
    indexRegister := 0
    variableRegisters := fun _ => 0
    emulatorType := emulatorType
    rngStream := rngStream
    rngCounter := 0
    keypadState := fun _ => KeyState.Up
    previousKeypadState := fun _ => KeyState.Up }

/-- `frame_buffer`: read-only view of the frame buffer. -/
def Chip8.frameBufferView (s : Chip8) : Nat → Nat :=
  s.frameBuffer

/-- `is_playing_sound`. -/
def Chip8.isPlayingSound (s : Chip8) : Bool :=
  decide (s.soundTimer > 0)

/-- `load_program`: copies the program bytes to ram starting at 0x200.
The Rust `copy_from_slice` into `ram[start..start+len]` panics when the
destination slice exceeds the array, embedded as a fault. -/
def Chip8.loadProgram (s : Chip8) (program : List Nat) : Except Fault Chip8 :=
  if PROGRAM_START_ADDRESS + program.length ≤ MEMORY_SIZE then
    .ok { s with ram := fun i =>
      if PROGRAM_START_ADDRESS ≤ i ∧ i < PROGRAM_START_ADDRESS + program.length
      then program.getD (i - PROGRAM_START_ADDRESS) 0 else s.ram i }
  else .error .outOfBounds

/-- `key_down`. -/
def Chip8.keyDown (s : Chip8) (key : Chip8Key) : Chip8 :=
  { s with keypadState := upd s.keypadState key.keyIndex KeyState.Down }

/-- `key_up`. -/
def Chip8.keyUp (s : Chip8) (key : Chip8Key) : Chip8 :=
  { s with keypadState := upd s.keypadState key.keyIndex KeyState.Up }

/-- `decrement_timers`: each timer goes down by one, floored at zero. -/
def Chip8.decrementTimers (s : Chip8) : Chip8 :=
  let s := if s.delayTimer > 0 then { s with delayTimer := s.delayTimer - 1 } else s
  if s.soundTimer > 0 then { s with soundTimer := s.soundTimer - 1 } else s

/-- `key_state`. -/
def Chip8.keyState (s : Chip8) (key : Chip8Key) : KeyState :=
  s.keypadState key.keyIndex

/-- `OpCode::x`: second-highest nibble. -/
def opX (op : Nat) : Nat := (op &&& 0x0F00) >>> 8

/-- `OpCode::y`: third-highest nibble. -/
def opY (op : Nat) : Nat := (op &&& 0x00F0) >>> 4

/-- `OpCode::n`: lowest nibble. -/
def opN (op : Nat) : Nat := op &&& 0x000F

/-- `OpCode::nn`: low byte. -/
def opNN (op : Nat) : Nat := op &&& 0x00FF

/-- `OpCode::nnn`: low three nibbles. -/
def opNNN (op : Nat) : Nat := op &&& 0x0FFF

/-- `fetch_next_opcode`: reads the big-endian word at the program counter.
Both ram reads are bounds-checked (a read outside `[0,4096)` is a panic in
the Rust source); `program_counter + 1` is 16-bit wrapping arithmetic. -/
def fetchNextOpcode (s : Chip8) : Except Fault Nat :=
  if s.programCounter < MEMORY_SIZE then
    let lowAddr := (s.programCounter + 1) % 65536
    if lowAddr < MEMORY_SIZE then
      .ok ((s.ram s.programCounter <<< 8) ||| s.ram lowAddr)
    else .error .outOfBounds
  else .error .outOfBounds

/-- `clear_screen` (00E0). -/
def clearScreen (s : Chip8) : Chip8 :=
  { s with frameBuffer := fun _ => 0 }

/-- `jump` (1nnn). -/
def jump (s : Chip8) (nnn : Nat) : Chip8 :=
  { s with programCounter := nnn }

/-- `set_variable_register` (6xnn). -/
def setVariableRegister (s : Chip8) (x nn : Nat) : Chip8 :=
  { s with variableRegisters := upd s.variableRegisters x nn }

/-- `add_to_variable_register` (7xnn): 8-bit wrapping add. -/
def addToVariableRegister (s : Chip8) (x nn : Nat) : Chip8 :=
  { s with
    variableRegisters := upd s.variableRegisters x ((s.variableRegisters x + nn) % 256) }

/-- `set_index_register` (Annn). -/
def setIndexRegister (s : Chip8) (nnn : Nat) : Chip8 :=
  { s with indexRegister := nnn }

/-- One iteration of the inner bit loop of `draw`: pixel `bitIndex` of the
sprite row `row` whose byte is `byte`, clipped at the display edges, XOR-ed
into the frame buffer, collisions recorded in the VF accumulator. -/
def drawBit (xOff yOff row : Nat) (byte : Nat) (acc : (Nat → Nat) × Nat)
    (bitIndex : Nat) : (Nat → Nat) × Nat :=
  let pixelX := xOff + bitIndex
  let pixelY := yOff + row
  if pixelX < DISPLAY_WIDTH ∧ pixelY < DISPLAY_HEIGHT then
    let spriteVal := (byte >>> (7 - bitIndex)) &&& 0x01
    let idx := pixelY * DISPLAY_WIDTH + pixelX
    let fbVal := acc.1 idx
    let vf := if fbVal = 1 ∧ spriteVal = 1 then 1 else acc.2
    (upd acc.1 idx (fbVal ^^^ spriteVal), vf)
  else acc

/-- Inner bit loop of `draw`: processes bit indices `[0, k)` of one sprite
row in ascending order (the Rust `for bit_index in 0..8`). -/
def drawRowBits (xOff yOff row : Nat) (byte : Nat) :
    Nat → (Nat → Nat) × Nat → (Nat → Nat) × Nat
  | 0, acc => acc
  | k + 1, acc => drawBit xOff yOff row byte (drawRowBits xOff yOff row byte k acc) k

/-- Outer row loop of `draw`: processes sprite rows `[0, m)` in ascending
order; `bytes r` is the sprite byte of row `r` (the ram slice). -/
def drawRows (xOff yOff : Nat) (bytes : Nat → Nat) :
    Nat → (Nat → Nat) × Nat → (Nat → Nat) × Nat
  | 0, acc => acc
  | m + 1, acc => drawRowBits xOff yOff m (bytes m) 8 (drawRows xOff yOff bytes m acc)

/-- `draw` (Dxyn).  The ram slice `ram[I..I+n]` is bounds-checked (slice
panic embedded as a fault); the anchor is `(Vx mod 64, Vy mod 32)`,
computed before VF is reset to 0; the loop accumulates the frame buffer
and the VF collision flag. -/
def draw (s : Chip8) (x y n : Nat) : Except Fault Chip8 :=
  let spriteMemoryAddress := s.indexRegister
  if spriteMemoryAddress + n ≤ MEMORY_SIZE then
    let xOff := s.variableRegisters x % DISPLAY_WIDTH
    let yOff := s.variableRegisters y % DISPLAY_HEIGHT
    let acc := drawRows xOff yOff (fun r => s.ram (spriteMemoryAddress + r)) n
      (s.frameBuffer, 0)
    .ok { s with frameBuffer := acc.1,
                 variableRegisters := upd s.variableRegisters 0xF acc.2 }
  else .error .outOfBounds

/-- `call_subroutine` (2nnn): pushes the program counter, jumps to nnn.
The stack write is bounds-checked; `stack_pointer += 1` is wrapping. -/
def callSubroutine (s : Chip8) (nnn : Nat) : Except Fault Chip8 :=
  if s.stackPointer < STACK_SIZE then
    .ok { s with stack := upd s.stack s.stackPointer s.programCounter,
                 stackPointer := (s.stackPointer + 1) % 256,
                 programCounter := nnn }
  else .error .outOfBounds

/-- `return_from_subroutine` (00EE): `stack_pointer -= 1` (8-bit wrapping),
then a bounds-checked stack read becomes the program counter. -/
def returnFromSubroutine (s : Chip8) : Except Fault Chip8 :=
  let sp := (s.stackPointer + 255) % 256
  if sp < STACK_SIZE then
    .ok { s with stackPointer := sp, programCounter := s.stack sp }
  else .error .outOfBounds

/-- `skip_instruction_if_vx_equals_nn` (3xnn). -/
def skipInstructionIfVxEqualsNn (s : Chip8) (x nn : Nat) : Chip8 :=
  if s.variableRegisters x = nn then
    { s with programCounter := (s.programCounter + 2) % 65536 }
  else s

/-- `skip_instruction_if_vx_not_equals_nn` (4xnn). -/
def skipInstructionIfVxNotEqualsNn (s : Chip8) (x nn : Nat) : Chip8 :=
  if s.variableRegisters x ≠ nn then
    { s with programCounter := (s.programCounter + 2) % 65536 }
  else s

/-- `skip_instruction_if_vx_equals_vy` (5xy0). -/
def skipInstructionIfVxEqualsVy (s : Chip8) (x y : Nat) : Chip8 :=
  if s.variableRegisters x = s.variableRegisters y then
    { s with programCounter := (s.programCounter + 2) % 65536 }
  else s

/-- `skip_instruction_if_vx_not_equals_vy` (9xy0). -/
def skipInstructionIfVxNotEqualsVy (s : Chip8) (x y : Nat) : Chip8 :=
  if s.variableRegisters x ≠ s.variableRegisters y then
    { s with programCounter := (s.programCounter + 2) % 65536 }
  else s

/-- `set_vx_to_vy` (8xy0). -/
def setVxToVy (s : Chip8) (x y : Nat) : Chip8 :=
  { s with variableRegisters := upd s.variableRegisters x (s.variableRegisters y) }

/-- `binary_or_vx_with_vy` (8xy1). -/
def binaryOrVxWithVy (s : Chip8) (x y : Nat) : Chip8 :=
  { s with
    variableRegisters :=
      upd s.variableRegisters x (s.variableRegisters x ||| s.variableRegisters y) }

/-- `binary_and_vx_with_vy` (8xy2). -/
def binaryAndVxWithVy (s : Chip8) (x y : Nat) : Chip8 :=
  { s with
    variableRegisters :=
      upd s.variableRegisters x (s.variableRegisters x &&& s.variableRegisters y) }

/-- `binary_xor_vx_with_vy` (8xy3). -/
def binaryXorVxWithVy (s : Chip8) (x y : Nat) : Chip8 :=
  { s with
    variableRegisters :=
      upd s.variableRegisters x (s.variableRegisters x ^^^ s.variableRegisters y) }

/-- `add_vy_to_vx` (8xy4): VF is written with the carry flag first, the
wrapped sum is stored into Vx afterwards. -/
def addVyToVx (s : Chip8) (x y : Nat) : Chip8 :=
  let xVal := s.variableRegisters x
  let yVal := s.variableRegisters y
  let vr1 := if xVal > 0xFF - yVal then upd s.variableRegisters 0xF 1
             else upd s.variableRegisters 0xF 0
  { s with variableRegisters := upd vr1 x ((xVal + yVal) % 256) }

/-- `subtract_vy_from_vx` (8xy5): VF is the borrow flag, written before
the wrapped difference is stored into Vx. -/
def subtractVyFromVx (s : Chip8) (x y : Nat) : Chip8 :=
  let xVal := s.variableRegisters x
  let yVal := s.variableRegisters y
  let vr1 := if xVal < yVal then upd s.variableRegisters 0xF 0
             else upd s.variableRegisters 0xF 1
  { s with variableRegisters := upd vr1 x ((xVal + 256 - yVal) % 256) }

/-- `subtract_vx_from_vy_into_vx` (8xy7). -/
def subtractVxFromVyIntoVx (s : Chip8) (x y : Nat) : Chip8 :=
  let xVal := s.variableRegisters x
  let yVal := s.variableRegisters y
  let vr1 := if yVal < xVal then upd s.variableRegisters 0xF 0
             else upd s.variableRegisters 0xF 1
  { s with variableRegisters := upd vr1 x ((yVal + 256 - xVal) % 256) }

/-- `shift_vx_right` (8xy6): on CosmacVip Vx is first replaced by Vy; VF
receives bit 0 of the pre-shift value, then Vx is shifted right. -/
def shiftVxRight (s : Chip8) (x y : Nat) : Chip8 :=
  let vr0 := if s.emulatorType = EmulatorType.CosmacVip then
      upd s.variableRegisters x (s.variableRegisters y)
    else s.variableRegisters
  let vr1 := upd vr0 0xF (vr0 x &&& 0x01)
  { s with variableRegisters := upd vr1 x (vr1 x >>> 1) }

/-- `shift_vx_left` (8xyE): on CosmacVip Vx is first replaced by Vy; VF
receives bit 7 of the pre-shift value, then Vx is shifted left (8-bit). -/
def shiftVxLeft (s : Chip8) (x y : Nat) : Chip8 :=
  let vr0 := if s.emulatorType = EmulatorType.CosmacVip then
      upd s.variableRegisters x (s.variableRegisters y)
    else s.variableRegisters
  let vr1 := upd vr0 0xF ((vr0 x >>> 7) &&& 0x01)
  { s with variableRegisters := upd vr1 x ((vr1 x <<< 1) % 256) }

/-- `jump_with_offset` (Bnnn): the offset register is V0 on CosmacVip and
V(high nibble of nnn) on Chip48; the jump target is the 16-bit wrapping
sum. -/
def jumpWithOffset (s : Chip8) (nnn : Nat) : Chip8 :=
  let offset := match s.emulatorType with
    | EmulatorType.CosmacVip => s.variableRegisters 0
    | EmulatorType.Chip48 => s.variableRegisters ((nnn &&& 0x0F00) >>> 8)
  jump s ((nnn + offset) % 65536)

/-- `randomize_vx` (Cxnn): draws one byte from the injected generator. -/
def randomizeVx (s : Chip8) (x nn : Nat) : Chip8 :=
  let randomNumber := s.rngStream s.rngCounter % 256
  { s with rngCounter := s.rngCounter + 1,
           variableRegisters := upd s.variableRegisters x (randomNumber &&& nn) }

/-- `skip_if_key_down` (Ex9E): the keypad read at index Vx is
bounds-checked (16 keys). -/
def skipIfKeyDown (s : Chip8) (x : Nat) : Except Fault Chip8 :=
  let keyIndex := s.variableRegisters x
  if keyIndex < NUM_KEYS then
    if s.keypadState keyIndex = KeyState.Down then
      .ok { s with programCounter := (s.programCounter + 2) % 65536 }
    else .ok s
  else .error .outOfBounds

/-- `skip_if_key_up` (ExA1). -/
def skipIfKeyUp (s : Chip8) (x : Nat) : Except Fault Chip8 :=
  let keyIndex := s.variableRegisters x
  if keyIndex < NUM_KEYS then
    if s.keypadState keyIndex = KeyState.Up then
      .ok { s with programCounter := (s.programCounter + 2) % 65536 }
    else .ok s
  else .error .outOfBounds

/-- `set_vx_to_delay_timer` (Fx07). -/
def setVxToDelayTimer (s : Chip8) (x : Nat) : Chip8 :=
  { s with variableRegisters := upd s.variableRegisters x s.delayTimer }

/-- `set_delay_timer_to_vx` (Fx15). -/
def setDelayTimerToVx (s : Chip8) (x : Nat) : Chip8 :=
  { s with delayTimer := s.variableRegisters x }

/-- `set_sound_timer_to_vx` (Fx18). -/
def setSoundTimerToVx (s : Chip8) (x : Nat) : Chip8 :=
  { s with soundTimer := s.variableRegisters x }

/-- `add_vx_to_index_register` (Fx1E): 16-bit wrapping add. -/
def addVxToIndexRegister (s : Chip8) (x : Nat) : Chip8 :=
  { s with indexRegister := (s.indexRegister + s.variableRegisters x) % 65536 }

/-- Search of `put_key_into_vx`: first key index (scanning 0..15 upward)
whose current state is Up while its previous-snapshot state is Down. -/
def findReleasedFrom (cur prev : Nat → KeyState) : Nat → Nat → Option Nat
  | 0, _ => none
  | k + 1, i =>
    if cur i = KeyState.Up ∧ prev i = KeyState.Down then some i
    else findReleasedFrom cur prev k (i + 1)

/-- The `iter().position(..)` of `put_key_into_vx` over the 16 keys. -/
def findReleased (cur prev : Nat → KeyState) : Option Nat :=
  findReleasedFrom cur prev NUM_KEYS 0

/-- `put_key_into_vx` (Fx0A): on a down-to-up transition the key index is
stored into Vx; otherwise the snapshot is refreshed and the program
counter is rewound by 2 (16-bit wrapping). -/
def putKeyIntoVx (s : Chip8) (x : Nat) : Chip8 :=
  match findReleased s.keypadState s.previousKeypadState with
  | some keyIndex =>
    { s with previousKeypadState := s.keypadState,
             variableRegisters := upd s.variableRegisters x keyIndex }
  | none =>
    { s with previousKeypadState := s.keypadState,
             programCounter := (s.programCounter + 65534) % 65536 }

/-- `point_index_register_at_font_character` (Fx29). -/
def pointIndexRegisterAtFontCharacter (s : Chip8) (x : Nat) : Chip8 :=
  let vx := s.variableRegisters x
  let characterIndex := vx &&& 0x0F
  { s with indexRegister := FONT_START_ADDRESS + characterIndex * 5 }

/-- `put_vx_decimal_digits_into_memory` (Fx33): the three decimal digits
of Vx are written to `ram[I..I+3]`; each write is bounds-checked. -/
def putVxDecimalDigitsIntoMemory (s : Chip8) (x : Nat) : Except Fault Chip8 :=
  let vx := s.variableRegisters x
  let startAddress := s.indexRegister
  if startAddress + 2 < MEMORY_SIZE then
    .ok { s with
          ram := upd (upd (upd s.ram startAddress (vx / 100 % 10))
            (startAddress + 1) (vx / 10 % 10)) (startAddress + 2) (vx % 10) }
  else .error .outOfBounds

/-- Loop body of `store_variable_registers_to_memory`: registers
`i, i+1, ...` (k of them) are written to `start + i, ...`; each ram write
is bounds-checked; on CosmacVip the index register is incremented
(16-bit wrapping) after each byte. -/
def storeRegsGo (start : Nat) : Nat → Nat → Chip8 → Except Fault Chip8
  | 0, _, s => .ok s
  | k + 1, i, s =>
    if start + i < MEMORY_SIZE then
      let s1 := { s with ram := upd s.ram (start + i) (s.variableRegisters i) }
      let s2 := if s1.emulatorType = EmulatorType.CosmacVip then
          { s1 with indexRegister := (s1.indexRegister + 1) % 65536 }
        else s1
      storeRegsGo start k (i + 1) s2
    else .error .outOfBounds

/-- `store_variable_registers_to_memory` (Fx55): `for i in 0..=x`, with
`start_address` latched from the index register before the loop. -/
def storeVariableRegistersToMemory (s : Chip8) (x : Nat) : Except Fault Chip8 :=
  storeRegsGo s.indexRegister (x + 1) 0 s

/-- Loop body of `load_variable_registers_from_memory`: registers
`i, i+1, ...` (k of them) are read from `start + i, ...`. -/
def loadRegsGo (start : Nat) : Nat → Nat → Chip8 → Except Fault Chip8
  | 0, _, s => .ok s
  | k + 1, i, s =>
    if start + i < MEMORY_SIZE then
      let s1 := { s with
                  variableRegisters := upd s.variableRegisters i (s.ram (start + i)) }
      let s2 := if s1.emulatorType = EmulatorType.CosmacVip then
          { s1 with indexRegister := (s1.indexRegister + 1) % 65536 }
        else s1
      loadRegsGo start k (i + 1) s2
    else .error .outOfBounds

/-- `load_variable_registers_from_memory` (Fx65). -/
def loadVariableRegistersFromMemory (s : Chip8) (x : Nat) : Except Fault Chip8 :=
  loadRegsGo s.indexRegister (x + 1) 0 s

/-- Dispatch of `execute_next_instruction`: the two-level Rust `match` on
the fetched word, in source order; the wildcard arms embed
`panic_for_invalid_opcode` as `Fault.invalidOpcode`. -/
def dispatch (s : Chip8) (op : Nat) : Except Fault Chip8 :=
  if op = 0x00E0 then .ok (clearScreen s)
  else if op = 0x00EE then returnFromSubroutine s
  else if 0x1000 ≤ op ∧ op ≤ 0x1FFF then .ok (jump s (opNNN op))
  else if 0x2000 ≤ op ∧ op ≤ 0x2FFF then callSubroutine s (opNNN op)
  else if 0x3000 ≤ op ∧ op ≤ 0x3FFF then
    .ok (skipInstructionIfVxEqualsNn s (opX op) (opNN op))
  else if 0x4000 ≤ op ∧ op ≤ 0x4FFF then
    .ok (skipInstructionIfVxNotEqualsNn s (opX op) (opNN op))
  else if 0x5000 ≤ op ∧ op ≤ 0x5FFF then
    .ok (skipInstructionIfVxEqualsVy s (opX op) (opY op))
  else if 0x6000 ≤ op ∧ op ≤ 0x6FFF then
    .ok (setVariableRegister s (opX op) (opNN op))
  else if 0x7000 ≤ op ∧ op ≤ 0x7FFF then
    .ok (addToVariableRegister s (opX op) (opNN op))
  else if 0x8000 ≤ op ∧ op ≤ 0x8FFF then
    if opN op = 0x0 then .ok (setVxToVy s (opX op) (opY op))
    else if opN op = 0x1 then .ok (binaryOrVxWithVy s (opX op) (opY op))
    else if opN op = 0x2 then .ok (binaryAndVxWithVy s (opX op) (opY op))
    else if opN op = 0x3 then .ok (binaryXorVxWithVy s (opX op) (opY op))
    else if opN op = 0x4 then .ok (addVyToVx s (opX op) (opY op))
    else if opN op = 0x5 then .ok (subtractVyFromVx s (opX op) (opY op))
    else if opN op = 0x6 then .ok (shiftVxRight s (opX op) (opY op))
    else if opN op = 0x7 then .ok (subtractVxFromVyIntoVx s (opX op) (opY op))
    else if opN op = 0xE then .ok (shiftVxLeft s (opX op) (opY op))
    else .error (.invalidOpcode op)
  else if 0x9000 ≤ op ∧ op ≤ 0x9FFF then
    .ok (skipInstructionIfVxNotEqualsVy s (opX op) (opY op))
  else if 0xA000 ≤ op ∧ op ≤ 0xAFFF then .ok (setIndexRegister s (opNNN op))
  else if 0xB000 ≤ op ∧ op ≤ 0xBFFF then .ok (jumpWithOffset s (opNNN op))
  else if 0xC000 ≤ op ∧ op ≤ 0xCFFF then .ok (randomizeVx s (opX op) (opNN op))
  else if 0xD000 ≤ op ∧ op ≤ 0xDFFF then draw s (opX op) (opY op) (opN op)
  else if 0xE000 ≤ op ∧ op ≤ 0xEFFF then
    if opNN op = 0x9E then skipIfKeyDown s (opX op)
    else if opNN op = 0xA1 then skipIfKeyUp s (opX op)
    else .error (.invalidOpcode op)
  else if 0xF000 ≤ op ∧ op ≤ 0xFFFF then
    if opNN op = 0x07 then .ok (setVxToDelayTimer s (opX op))
    else if opNN op = 0x0A then .ok (putKeyIntoVx s (opX op))
    else if opNN op = 0x15 then .ok (setDelayTimerToVx s (opX op))
    else if opNN op = 0x18 then .ok (setSoundTimerToVx s (opX op))
    else if opNN op = 0x1E then .ok (addVxToIndexRegister s (opX op))
    else if opNN op = 0x29 then .ok (pointIndexRegisterAtFontCharacter s (opX op))
    else if opNN op = 0x33 then putVxDecimalDigitsIntoMemory s (opX op)
    else if opNN op = 0x55 then storeVariableRegistersToMemory s (opX op)
    else if opNN op = 0x65 then loadVariableRegistersFromMemory s (opX op)
    else .error (.invalidOpcode op)
  else .error (.invalidOpcode op)

/-- `execute_next_instruction`: fetch, unconditional pre-advance of the
program counter by 2 (16-bit wrapping), then dispatch. -/
def executeNextInstruction (s : Chip8) : Except Fault Chip8 :=
  match fetchNextOpcode s with
  | .error e => .error e
  | .ok op =>
    dispatch { s with programCounter := (s.programCounter + 2) % 65536 } op

/-! ### Helper lemmas about the embedding primitives -/

theorem upd_self {α : Type} (f : Nat → α) (i : Nat) (v : α) : upd f i v i = v := by
  simp [upd]

theorem upd_other {α : Type} (f : Nat → α) (i j : Nat) (v : α) (h : j ≠ i) :
    upd f i v j = f j := by
  simp [upd, h]

theorem upd_apply {α : Type} (f : Nat → α) (i j : Nat) (v : α) :
    upd f i v j = if j = i then v else f j := rfl

theorem and_shiftRight_distrib (a b n : Nat) :
    (a &&& b) >>> n = (a >>> n) &&& (b >>> n) := by
  apply Nat.eq_of_testBit_eq
  intro i
  simp [Nat.testBit_shiftRight, Nat.testBit_and, Nat.add_comm]

theorem opX_eq (op : Nat) : opX op = op / 256 % 16 := by
  have h1 : (0x0F00 : Nat) >>> 8 = 0xF := by decide
  have h2 := and_shiftRight_distrib op 0x0F00 8
  have h3 : op >>> 8 = op / 256 := by rw [Nat.shiftRight_eq_div_pow]
  have h4 := Nat.and_pow_two_sub_one_eq_mod (op / 256) 4
  norm_num at h4
  rw [opX, h2, h1, h3, h4]

theorem opY_eq (op : Nat) : opY op = op / 16 % 16 := by
  have h1 : (0x00F0 : Nat) >>> 4 = 0xF := by decide
  have h2 := and_shiftRight_distrib op 0x00F0 4
  have h3 : op >>> 4 = op / 16 := by rw [Nat.shiftRight_eq_div_pow]
  have h4 := Nat.and_pow_two_sub_one_eq_mod (op / 16) 4
  norm_num at h4
  rw [opY, h2, h1, h3, h4]

theorem opN_eq (op : Nat) : opN op = op % 16 := by
  have h := Nat.and_pow_two_sub_one_eq_mod op 4
  norm_num at h
  rw [opN, h]

theorem opNN_eq (op : Nat) : opNN op = op % 256 := by
  have h := Nat.and_pow_two_sub_one_eq_mod op 8
  norm_num at h
  rw [opNN, h]

theorem opNNN_eq (op : Nat) : opNNN op = op % 4096 := by
  have h := Nat.and_pow_two_sub_one_eq_mod op 12
  norm_num at h
  rw [opNNN, h]

theorem opX_lt (op : Nat) : opX op < 16 := by
  rw [opX_eq]; exact Nat.mod_lt _ (by norm_num)

theorem opY_lt (op : Nat) : opY op < 16 := by
  rw [opY_eq]; exact Nat.mod_lt _ (by norm_num)

theorem opN_lt (op : Nat) : opN op < 16 := by
  rw [opN_eq]; exact Nat.mod_lt _ (by norm_num)

/-! ### C5: shift quirks (8xy6 / 8xyE) -/

/-- Behaviour asserted by claim C5 for the two shift instructions: on
CosmacVip the pre-shift value is Vy (Vx is first replaced by Vy), on
Chip48 it is Vx; the shifted value lands in Vx and VF receives the bit
shifted out (bit 0 for the right shift, bit 7 for the left shift). -/
def ShiftQuirkSpec (s : Chip8) (x y : Nat) : Prop :=
  (s.emulatorType = EmulatorType.CosmacVip →
    (shiftVxRight s x y).variableRegisters x = s.variableRegisters y >>> 1 ∧
    (shiftVxRight s x y).variableRegisters 0xF = s.variableRegisters y &&& 0x01 ∧
    (shiftVxLeft s x y).variableRegisters x = (s.variableRegisters y <<< 1) % 256 ∧
    (shiftVxLeft s x y).variableRegisters 0xF = (s.variableRegisters y >>> 7) &&& 0x01) ∧
  (s.emulatorType = EmulatorType.Chip48 →
    (shiftVxRight s x y).variableRegisters x = s.variableRegisters x >>> 1 ∧
    (shiftVxRight s x y).variableRegisters 0xF = s.variableRegisters x &&& 0x01 ∧
    (shiftVxLeft s x y).variableRegisters x = (s.variableRegisters x <<< 1) % 256 ∧
    (shiftVxLeft s x y).variableRegisters 0xF = (s.variableRegisters x >>> 7) &&& 0x01)

/-- C5: for every state and register indices `x ≠ 0xF`, 8xy6 shifts the
pre-shift value (Vy under CosmacVip after the `Vx = Vy` copy, Vx in place
under Chip48) right by one into Vx with VF = bit 0 of the pre-shift
value, and 8xyE mirrors this for the left shift with VF = bit 7 of the
pre-shift value. -/
theorem c5_shift_quirks (s : Chip8) (x y : Nat) (hx : x < 16) (hy : y < 16)
    (hxf : x ≠ 0xF) : ShiftQuirkSpec s x y := by
  have hfx : (0xF : Nat) ≠ x := fun h => hxf h.symm
  constructor <;> intro he <;>
    refine ⟨?_, ?_, ?_, ?_⟩ <;>
    simp [shiftVxRight, shiftVxLeft, he, upd, hxf, hfx]

/-- Witness for C5 at a concrete input. -/
theorem c5_shift_quirks_witness :
    ((0 : Nat) < 16 ∧ (1 : Nat) < 16 ∧ (0 : Nat) ≠ 0xF) ∧
      ShiftQuirkSpec (chip8New EmulatorType.CosmacVip (fun _ => 0)) 0 1 :=
  ⟨by decide,
   c5_shift_quirks (chip8New EmulatorType.CosmacVip (fun _ => 0)) 0 1
     (by decide) (by decide) (by decide)⟩

/-! ### C6: jump with offset quirk (Bnnn) -/

/-- Behaviour asserted by claim C6: the Bnnn jump target is `nnn + V0`
under CosmacVip and `nnn + Vx` (x = high nibble of nnn) under Chip48,
both reduced modulo 65536. -/
def JumpOffsetSpec (s : Chip8) (nnn : Nat) : Prop :=
  (s.emulatorType = EmulatorType.CosmacVip →
    (jumpWithOffset s nnn).programCounter = (nnn + s.variableRegisters 0) % 65536) ∧
  (s.emulatorType = EmulatorType.Chip48 →
    (jumpWithOffset s nnn).programCounter =
      (nnn + s.variableRegisters ((nnn &&& 0x0F00) >>> 8)) % 65536)

/-- C6: for every Bnnn instruction (nnn is the 12-bit field, so
`nnn &&& 0x0FFF = nnn`), the program counter is set to `nnn + V0` under
CosmacVip and to `nnn + Vx` with x the high nibble of nnn under Chip48,
both with 16-bit wrapping addition. -/
theorem c6_jump_with_offset (s : Chip8) (nnn : Nat) (h : nnn < 4096) :
    JumpOffsetSpec s nnn := by
  constructor <;> intro he <;> simp [jumpWithOffset, jump, he]

/-- Witness for C6 at a concrete input. -/
theorem c6_jump_with_offset_witness :
    (0x123 : Nat) < 4096 ∧
      JumpOffsetSpec (chip8New EmulatorType.CosmacVip (fun _ => 0)) 0x123 :=
  ⟨by decide,
   c6_jump_with_offset (chip8New EmulatorType.CosmacVip (fun _ => 0)) 0x123
     (by decide)⟩

/-! ### C10: 8xy4 with x = 0xF overwrites the carry flag -/

/-- C10: for every state and every register index y, executing 8xy4 with
x = 0xF leaves VF equal to the wrapped sum `(old VF + Vy) mod 256` rather
than the carry indicator, because the carry is written to VF before the
sum is stored into Vx = VF. -/
theorem c10_addVyToVx_vf_overwritten (s : Chip8) (y : Nat) (hy : y < 16) :
    (addVyToVx s 0xF y).variableRegisters 0xF =
      (s.variableRegisters 0xF + s.variableRegisters y) % 256 := by
  simp only [addVyToVx]
  split <;> simp [upd_self]

/-- Witness for C10 at a concrete input. -/
theorem c10_addVyToVx_vf_overwritten_witness :
    (3 : Nat) < 16 ∧
      (addVyToVx (chip8New EmulatorType.CosmacVip (fun _ => 0)) 0xF 3).variableRegisters 0xF =
        ((chip8New EmulatorType.CosmacVip (fun _ => 0)).variableRegisters 0xF +
          (chip8New EmulatorType.CosmacVip (fun _ => 0)).variableRegisters 3) % 256 :=
  ⟨by decide,
   c10_addVyToVx_vf_overwritten (chip8New EmulatorType.CosmacVip (fun _ => 0)) 3
     (by decide)⟩

/-! ### C4: wrapping adds (7xnn and 8xy4) -/

/-- Concrete state refuting claim C4 at x = 0xF: VF = 1 and V3 = 1. -/
def c4CexState : Chip8 :=
  { chip8New EmulatorType.CosmacVip (fun _ => 0) with
    variableRegisters := fun i => if i = 0xF then 1 else if i = 3 then 1 else 0 }

/-- Counterexample to C4 as stated: with x = 0xF, Vx = VF = 1 and
Vy = V3 = 1, the sum 2 does not exceed 255, so the claim demands VF = 0
after 8xy4; the code leaves VF = 2 (the wrapped sum overwrites the carry
flag). -/
theorem c4_counterexample :
    ¬ ((addVyToVx c4CexState 0xF 3).variableRegisters 0xF =
        if c4CexState.variableRegisters 0xF + c4CexState.variableRegisters 3 > 255
        then 1 else 0) := by
  decide

/-- Behaviour asserted by claim C4 as amended: both additions produce the
wrapped 8-bit sum in Vx, and for 8xy4 with x ≠ 0xF the flag register VF
is 1 exactly when the unsigned sum exceeds 255, else 0. -/
def AddWrapSpec (s : Chip8) (x y nn : Nat) : Prop :=
  (addToVariableRegister s x nn).variableRegisters x =
    (s.variableRegisters x + nn) % 256 ∧
  (addVyToVx s x y).variableRegisters x =
    (s.variableRegisters x + s.variableRegisters y) % 256 ∧
  (x ≠ 0xF →
    (addVyToVx s x y).variableRegisters 0xF =
      if s.variableRegisters x + s.variableRegisters y > 255 then 1 else 0)

/-- C4 (amended): for all 8-bit register values, 7xnn and 8xy4 store
`(a+b) mod 256` into Vx (both embedded as total functions: no panic on
overflow), and — provided x ≠ 0xF, whose violation is the counterexample —
8xy4 sets VF to 1 exactly when `a + b > 255` and to 0 otherwise. -/
theorem c4_add_wrap (s : Chip8) (x y nn : Nat) (hx : x < 16) (hy : y < 16)
    (ha : s.variableRegisters x < 256) (hb : s.variableRegisters y < 256)
    (hnn : nn < 256) : AddWrapSpec s x y nn := by
  refine ⟨by simp [addToVariableRegister, upd_self], by
    simp only [addVyToVx]
    split <;> simp [upd_self], ?_⟩
  intro hxf
  have hfx : (0xF : Nat) ≠ x := fun h => hxf h.symm
  simp only [addVyToVx]
  split <;> rename_i hc <;>
    simp only [upd_other _ _ _ _ hfx, upd_self] <;>
    [rw [if_pos (by omega)]; rw [if_neg (by omega)]]

/-- Witness for the amended C4 at a concrete input. -/
theorem c4_add_wrap_witness :
    ((0 : Nat) < 16 ∧ (1 : Nat) < 16 ∧
      (chip8New EmulatorType.CosmacVip (fun _ => 0)).variableRegisters 0 < 256 ∧
      (chip8New EmulatorType.CosmacVip (fun _ => 0)).variableRegisters 1 < 256 ∧
      (7 : Nat) < 256) ∧
      AddWrapSpec (chip8New EmulatorType.CosmacVip (fun _ => 0)) 0 1 7 :=
  ⟨by refine ⟨by decide, by decide, by decide, by decide, by decide⟩,
   c4_add_wrap (chip8New EmulatorType.CosmacVip (fun _ => 0)) 0 1 7
     (by decide) (by decide) (by decide) (by decide) (by decide)⟩

theorem storeRegsGo_succ (start k i : Nat) (s : Chip8) (hb : start + i < 4096) :
    storeRegsGo start (k + 1) i s =
      storeRegsGo start k (i + 1)
        (if s.emulatorType = EmulatorType.CosmacVip then
          { s with ram := upd s.ram (start + i) (s.variableRegisters i),
                   indexRegister := (s.indexRegister + 1) % 65536 }
         else
          { s with ram := upd s.ram (start + i) (s.variableRegisters i) }) := by
  simp only [storeRegsGo, MEMORY_SIZE]
  rw [if_pos hb]

theorem storeRegsGo_ok (start : Nat) :
    ∀ (k i : Nat) (s : Chip8), start + i + k ≤ 4096 → s.indexRegister < 65536 →
    ∃ t, storeRegsGo start k i s = .ok t ∧
      (∀ j, t.ram j = if start + i ≤ j ∧ j < start + i + k
        then s.variableRegisters (j - start) else s.ram j) ∧
      t.variableRegisters = s.variableRegisters ∧
      t.indexRegister = (if s.emulatorType = EmulatorType.CosmacVip
        then (s.indexRegister + k) % 65536 else s.indexRegister) ∧
      t.emulatorType = s.emulatorType ∧
      t.frameBuffer = s.frameBuffer ∧
      t.programCounter = s.programCounter := by
  intro k
  induction k with
  | zero =>
    intro i s h h16
    refine ⟨s, rfl, ?_, rfl, ?_, rfl, rfl, rfl⟩
    · intro j; rw [if_neg (by omega)]
    · rw [Nat.add_zero, Nat.mod_eq_of_lt h16]
      split <;> rfl
  | succ k ih =>
    intro i s h h16
    rw [storeRegsGo_succ start k i s (by omega)]
    by_cases he : s.emulatorType = EmulatorType.CosmacVip
    · rw [if_pos he]
      obtain ⟨t, ht, hram, hvr, hidx, htype, hfb, hpc⟩ :=
        ih (i + 1)
          { s with ram := upd s.ram (start + i) (s.variableRegisters i),
                   indexRegister := (s.indexRegister + 1) % 65536 }
          (by omega) (Nat.mod_lt _ (by norm_num))
      refine ⟨t, ht, ?_, hvr, ?_, htype, hfb, hpc⟩
      · intro j
        rw [hram j]
        by_cases h1 : start + (i + 1) ≤ j ∧ j < start + (i + 1) + k
        · rw [if_pos h1, if_pos (by omega)]
        · rw [if_neg h1]
          by_cases h2 : j = start + i
          · rw [if_pos (by omega)]
            show upd s.ram (start + i) (s.variableRegisters i) j = _
            rw [h2, upd_self]
            congr 1
            omega
          · rw [if_neg (by omega)]
            show upd s.ram (start + i) (s.variableRegisters i) j = s.ram j
            exact upd_other _ _ _ _ h2
      · rw [hidx]
        rw [if_pos he, if_pos he, Nat.mod_add_mod]
        congr 1
        omega
    · rw [if_neg he]
      obtain ⟨t, ht, hram, hvr, hidx, htype, hfb, hpc⟩ :=
        ih (i + 1)
          { s with ram := upd s.ram (start + i) (s.variableRegisters i) }
          (by omega) h16
      refine ⟨t, ht, ?_, hvr, ?_, htype, hfb, hpc⟩
      · intro j
        rw [hram j]
        by_cases h1 : start + (i + 1) ≤ j ∧ j < start + (i + 1) + k
        · rw [if_pos h1, if_pos (by omega)]
        · rw [if_neg h1]
          by_cases h2 : j = start + i
          · rw [if_pos (by omega)]
            show upd s.ram (start + i) (s.variableRegisters i) j = _
            rw [h2, upd_self]
            congr 1
            omega
          · rw [if_neg (by omega)]
            show upd s.ram (start + i) (s.variableRegisters i) j = s.ram j
            exact upd_other _ _ _ _ h2
      · rw [hidx]
        rw [if_neg he, if_neg he]

theorem loadRegsGo_succ (start k i : Nat) (s : Chip8) (hb : start + i < 4096) :
    loadRegsGo start (k + 1) i s =
      loadRegsGo start k (i + 1)
        (if s.emulatorType = EmulatorType.CosmacVip then
          { s with variableRegisters := upd s.variableRegisters i (s.ram (start + i)),
                   indexRegister := (s.indexRegister + 1) % 65536 }
         else
          { s with variableRegisters := upd s.variableRegisters i (s.ram (start + i)) }) := by
  simp only [loadRegsGo, MEMORY_SIZE]
  rw [if_pos hb]

theorem loadRegsGo_ok (start : Nat) :
    ∀ (k i : Nat) (s : Chip8), start + i + k ≤ 4096 → s.indexRegister < 65536 →
    ∃ t, loadRegsGo start k i s = .ok t ∧
      (∀ m, t.variableRegisters m = if i ≤ m ∧ m < i + k
        then s.ram (start + m) else s.variableRegisters m) ∧
      t.ram = s.ram ∧
      t.indexRegister = (if s.emulatorType = EmulatorType.CosmacVip
        then (s.indexRegister + k) % 65536 else s.indexRegister) ∧
      t.emulatorType = s.emulatorType ∧
      t.frameBuffer = s.frameBuffer ∧
      t.programCounter = s.programCounter := by
  intro k
  induction k with
  | zero =>
    intro i s h h16
    refine ⟨s, rfl, ?_, rfl, ?_, rfl, rfl, rfl⟩
    · intro m; rw [if_neg (by omega)]
    · rw [Nat.add_zero, Nat.mod_eq_of_lt h16]
      split <;> rfl
  | succ k ih =>
    intro i s h h16
    rw [loadRegsGo_succ start k i s (by omega)]
    by_cases he : s.emulatorType = EmulatorType.CosmacVip
    · rw [if_pos he]
      obtain ⟨t, ht, hvr, hram, hidx, htype, hfb, hpc⟩ :=
        ih (i + 1)
          { s with variableRegisters := upd s.variableRegisters i (s.ram (start + i)),
                   indexRegister := (s.indexRegister + 1) % 65536 }
          (by omega) (Nat.mod_lt _ (by norm_num))
      refine ⟨t, ht, ?_, hram, ?_, htype, hfb, hpc⟩
      · intro m
        rw [hvr m]
        by_cases h1 : i + 1 ≤ m ∧ m < i + 1 + k
        · rw [if_pos h1, if_pos (by omega)]
        · rw [if_neg h1]
          by_cases h2 : m = i
          · rw [if_pos (by omega)]
            show upd s.variableRegisters i (s.ram (start + i)) m = _
            rw [h2, upd_self]
          · rw [if_neg (by omega)]
            exact upd_other _ _ _ _ h2
      · rw [hidx]
        rw [if_pos he, if_pos he, Nat.mod_add_mod]
        congr 1
        omega
    · rw [if_neg he]
      obtain ⟨t, ht, hvr, hram, hidx, htype, hfb, hpc⟩ :=
        ih (i + 1)
          { s with variableRegisters := upd s.variableRegisters i (s.ram (start + i)) }
          (by omega) h16
      refine ⟨t, ht, ?_, hram, ?_, htype, hfb, hpc⟩
      · intro m
        rw [hvr m]
        by_cases h1 : i + 1 ≤ m ∧ m < i + 1 + k
        · rw [if_pos h1, if_pos (by omega)]
        · rw [if_neg h1]
          by_cases h2 : m = i
          · rw [if_pos (by omega)]
            show upd s.variableRegisters i (s.ram (start + i)) m = _
            rw [h2, upd_self]
          · rw [if_neg (by omega)]
            exact upd_other _ _ _ _ h2
      · rw [hidx]
        rw [if_neg he, if_neg he]

/-- Concrete state refuting claim C3 as stated on CosmacVip:
V0 = 5 and index register 0x300 over otherwise-zero ram. -/
def c3CexState : Chip8 :=
  { chip8New EmulatorType.CosmacVip (fun _ => 0) with
    indexRegister := 0x300,
    variableRegisters := fun i => if i = 0 then 5 else 0 }

/-- Counterexample to C3 as stated: on CosmacVip, storing V0 (x = 0) and
then immediately loading (registers zeroed in between, the index register
left where the store put it) does not reproduce R[0] = 5 — the load reads
from 0x301, because the store advanced the index register, and V0 ends 0. -/
theorem c3_counterexample :
    (match storeVariableRegistersToMemory c3CexState 0 with
     | .ok t1 =>
       (match loadVariableRegistersFromMemory
           { t1 with variableRegisters := fun _ => 0 } 0 with
        | .ok t2 => t2.variableRegisters 0
        | .error _ => 999)
     | .error _ => 999) = 0 ∧
    c3CexState.variableRegisters 0 = 5 ∧ (0 : Nat) ≠ 5 := by
  refine ⟨?_, rfl, by decide⟩
  rfl

/-- Behaviour asserted by claim C3 as amended: the store succeeds, the
index register advances by x+1 on CosmacVip and is unchanged on Chip48,
and a load performed on the stored ram with the register file zeroed and
the index register restored to its pre-store value reproduces
R[0..=x] exactly. -/
def StoreLoadRoundTripSpec (s : Chip8) (x : Nat) : Prop :=
  ∃ t1, storeVariableRegistersToMemory s x = .ok t1 ∧
    (s.emulatorType = EmulatorType.CosmacVip →
      t1.indexRegister = s.indexRegister + (x + 1)) ∧
    (s.emulatorType = EmulatorType.Chip48 →
      t1.indexRegister = s.indexRegister) ∧
    ∃ t2, loadVariableRegistersFromMemory
        { t1 with variableRegisters := fun _ => 0,
                  indexRegister := s.indexRegister } x = .ok t2 ∧
      ∀ m, m ≤ x → t2.variableRegisters m = s.variableRegisters m

/-- C3 (amended): for any register file and either platform, Fx55 then
Fx65 with registers zeroed in between reproduces R[0..=x] exactly,
provided (as the counterexample forces for CosmacVip) the index register
is restored to its pre-store value before the load; across the store the
index register advances by x+1 under CosmacVip and is unchanged under
Chip48. -/
theorem c3_store_load_round_trip (s : Chip8) (x : Nat) (hx : x < 16)
    (hI : s.indexRegister + x < 4096) : StoreLoadRoundTripSpec s x := by
  obtain ⟨t1, ht1, hram1, hvr1, hidx1, htype1, _, _⟩ :=
    storeRegsGo_ok s.indexRegister (x + 1) 0 s (by omega) (by omega)
  refine ⟨t1, ht1, ?_, ?_, ?_⟩
  · intro he
    rw [hidx1, if_pos he, Nat.mod_eq_of_lt (by omega)]
  · intro he
    rw [hidx1, if_neg (by rw [he]; exact fun hcontra => by cases hcontra)]
  · obtain ⟨t2, ht2, hvr2, _, _, _, _, _⟩ :=
      loadRegsGo_ok s.indexRegister (x + 1) 0
        { t1 with variableRegisters := fun _ => 0,
                  indexRegister := s.indexRegister } (by omega)
        (by show s.indexRegister < 65536; omega)
    refine ⟨t2, ht2, ?_⟩
    intro m hm
    rw [hvr2 m, if_pos (by omega)]
    show t1.ram (s.indexRegister + m) = _
    rw [hram1 (s.indexRegister + m), if_pos (by omega)]
    congr 1
    omega

/-- Witness for the amended C3 at a concrete input. -/
theorem c3_store_load_round_trip_witness :
    ((2 : Nat) < 16 ∧ c3CexState.indexRegister + 2 < 4096) ∧
      StoreLoadRoundTripSpec c3CexState 2 :=
  ⟨by constructor <;> decide,
   c3_store_load_round_trip c3CexState 2 (by decide) (by decide)⟩

/-! ### Fetch and dispatch reduction lemmas -/

theorem byteCompose (a b : Nat) (hb : b < 256) : (a <<< 8) ||| b = a * 256 + b := by
  have h1 : a <<< 8 = 2 ^ 8 * a := by rw [Nat.shiftLeft_eq, Nat.mul_comm]
  have hb8 : b < 2 ^ 8 := by norm_num at hb ⊢; omega
  rw [h1, ← Nat.mul_add_lt_is_or hb8 a]
  ring

theorem fetchNextOpcode_ok (s : Chip8) (h : s.programCounter + 1 < 4096) :
    fetchNextOpcode s =
      .ok ((s.ram s.programCounter <<< 8) ||| s.ram (s.programCounter + 1)) := by
  simp only [fetchNextOpcode, MEMORY_SIZE]
  rw [Nat.mod_eq_of_lt (show s.programCounter + 1 < 65536 by omega)]
  rw [if_pos (by omega), if_pos (by omega)]

theorem dispatch_putKey (s : Chip8) (op : Nat) (h1 : 0xF000 ≤ op)
    (h2 : op ≤ 0xFFFF) (h3 : opNN op = 0x0A) :
    dispatch s op = .ok (putKeyIntoVx s (opX op)) := by
  simp only [dispatch]
  repeat rw [if_neg (by omega)]
  rw [if_pos (by omega)]
  rw [h3]
  rw [if_neg (by decide), if_pos rfl]

/-! ### C7: Fx0A key-release edge detection -/

theorem findReleasedFrom_some_spec (cur prev : Nat → KeyState) :
    ∀ (k i j : Nat), findReleasedFrom cur prev k i = some j →
      (cur j = KeyState.Up ∧ prev j = KeyState.Down) ∧ i ≤ j ∧ j < i + k ∧
      ∀ m, i ≤ m → m < j → ¬(cur m = KeyState.Up ∧ prev m = KeyState.Down) := by
  intro k
  induction k with
  | zero =>
    intro i j h
    exact absurd h (by simp [findReleasedFrom])
  | succ k ih =>
    intro i j h
    simp only [findReleasedFrom] at h
    by_cases hc : cur i = KeyState.Up ∧ prev i = KeyState.Down
    · rw [if_pos hc] at h
      injection h with h
      subst h
      exact ⟨hc, Nat.le_refl _, by omega, fun m hm1 hm2 => (by omega : False).elim⟩
    · rw [if_neg hc] at h
      obtain ⟨hj, hij, hjk, hmin⟩ := ih (i + 1) j h
      refine ⟨hj, by omega, by omega, ?_⟩
      intro m hm1 hm2
      rcases Nat.eq_or_lt_of_le hm1 with heq | hlt
      · rw [← heq]
        exact hc
      · exact hmin m (by omega) hm2

theorem findReleasedFrom_none_spec (cur prev : Nat → KeyState) :
    ∀ (k i : Nat), findReleasedFrom cur prev k i = none →
      ∀ m, i ≤ m → m < i + k → ¬(cur m = KeyState.Up ∧ prev m = KeyState.Down) := by
  intro k
  induction k with
  | zero =>
    intro i h m hm1 hm2
    omega
  | succ k ih =>
    intro i h m hm1 hm2
    simp only [findReleasedFrom] at h
    by_cases hc : cur i = KeyState.Up ∧ prev i = KeyState.Down
    · rw [if_pos hc] at h
      exact absurd h (by simp)
    · rw [if_neg hc] at h
      rcases Nat.eq_or_lt_of_le hm1 with heq | hlt
      · rw [← heq]
        exact hc
      · exact ih (i + 1) h m (by omega) (by omega)

/-- Key i has transitioned from down (previous snapshot) to up (current). -/
def Released (s : Chip8) (i : Nat) : Prop :=
  s.keypadState i = KeyState.Up ∧ s.previousKeypadState i = KeyState.Down

/-- Behaviour asserted by claim C7 for one `execute_next_instruction` call
fetching Fx0A: on a down-to-up transition, the least released key index
lands in Vx and the program counter keeps its post-fetch value; otherwise
the previous snapshot is refreshed and the program counter returns to its
pre-fetch value, re-fetching the same instruction next call. -/
def PutKeySpec (s : Chip8) (x : Nat) : Prop :=
  ((∃ i, i < 16 ∧ Released s i) →
    ∃ s1 j, executeNextInstruction s = .ok s1 ∧ Released s j ∧
      (∀ m, m < j → ¬ Released s m) ∧
      s1.variableRegisters x = j ∧
      s1.programCounter = (s.programCounter + 2) % 65536) ∧
  ((¬ ∃ i, i < 16 ∧ Released s i) →
    ∃ s1, executeNextInstruction s = .ok s1 ∧
      s1.previousKeypadState = s.keypadState ∧
      s1.programCounter = s.programCounter)

/-- C7: executing Fx0A writes the least down-to-up transitioned key index
into Vx and proceeds when a release happened; otherwise it refreshes the
snapshot and rewinds the program counter by 2 so the same instruction is
fetched again. -/
theorem c7_put_key_block (s : Chip8) (x : Nat) (hx : x < 16)
    (hpc : s.programCounter + 1 < 4096)
    (hhi : s.ram s.programCounter = 0xF0 + x)
    (hlo : s.ram (s.programCounter + 1) = 0x0A) : PutKeySpec s x := by
  have hop_fetch : fetchNextOpcode s = .ok ((0xF0 + x) * 256 + 0x0A) := by
    rw [fetchNextOpcode_ok s hpc, hhi, hlo, byteCompose _ _ (by norm_num)]
  have hexec : executeNextInstruction s =
      .ok (putKeyIntoVx { s with programCounter := (s.programCounter + 2) % 65536 } x) := by
    simp only [executeNextInstruction, hop_fetch]
    rw [dispatch_putKey _ _ (by omega) (by omega) (by rw [opNN_eq]; omega)]
    rw [show opX ((0xF0 + x) * 256 + 0x0A) = x from by rw [opX_eq]; omega]
  constructor
  · rintro ⟨i, hi, hrel⟩
    cases hfind : findReleased s.keypadState s.previousKeypadState with
    | none =>
      exact absurd hrel
        (findReleasedFrom_none_spec _ _ 16 0 hfind i (by omega) (by omega))
    | some j =>
      obtain ⟨hj, _, hjk, hmin⟩ := findReleasedFrom_some_spec _ _ 16 0 j hfind
      have hput : putKeyIntoVx
          { s with programCounter := (s.programCounter + 2) % 65536 } x =
          { s with programCounter := (s.programCounter + 2) % 65536,
                   previousKeypadState := s.keypadState,
                   variableRegisters := upd s.variableRegisters x j } := by
        simp only [putKeyIntoVx]
        rw [show findReleased s.keypadState s.previousKeypadState = some j from hfind]
      refine ⟨{ s with programCounter := (s.programCounter + 2) % 65536,
                       previousKeypadState := s.keypadState,
                       variableRegisters := upd s.variableRegisters x j }, j,
              by rw [hexec, hput], hj, fun m hm => hmin m (by omega) hm, ?_, rfl⟩
      exact upd_self _ _ _
  · intro hno
    cases hfind : findReleased s.keypadState s.previousKeypadState with
    | some j =>
      obtain ⟨hj, _, hjk, _⟩ := findReleasedFrom_some_spec _ _ 16 0 j hfind
      exact absurd ⟨j, by omega, hj⟩ hno
    | none =>
      have hput : putKeyIntoVx
          { s with programCounter := (s.programCounter + 2) % 65536 } x =
          { s with programCounter := ((s.programCounter + 2) % 65536 + 65534) % 65536,
                   previousKeypadState := s.keypadState } := by
        simp only [putKeyIntoVx]
        rw [show findReleased s.keypadState s.previousKeypadState = none from hfind]
      refine ⟨{ s with
                programCounter := ((s.programCounter + 2) % 65536 + 65534) % 65536,
                previousKeypadState := s.keypadState },
              by rw [hexec, hput], rfl, ?_⟩
      show ((s.programCounter + 2) % 65536 + 65534) % 65536 = s.programCounter
      omega

/-- Concrete state for the C7 witness: key 3 was down in the previous
snapshot and is up now. -/
def c7WitnessState : Chip8 :=
  { chip8New EmulatorType.CosmacVip (fun _ => 0) with
    ram := fun i => if i = 0x200 then 0xF1 else if i = 0x201 then 0x0A else 0,
    previousKeypadState := fun i => if i = 3 then KeyState.Down else KeyState.Up }

/-- Witness for C7 at a concrete input. -/
theorem c7_put_key_block_witness :
    ((1 : Nat) < 16 ∧ c7WitnessState.programCounter + 1 < 4096 ∧
      c7WitnessState.ram c7WitnessState.programCounter = 0xF0 + 1 ∧
      c7WitnessState.ram (c7WitnessState.programCounter + 1) = 0x0A) ∧
      PutKeySpec c7WitnessState 1 :=
  ⟨by refine ⟨by decide, by decide, by decide, by decide⟩,
   c7_put_key_block c7WitnessState 1 (by decide) (by decide) (by decide) (by decide)⟩

/-! ### Draw loop characterization -/

theorem drawBit_in (xOff yOff row byte : Nat) (acc : (Nat → Nat) × Nat)
    (bitIndex : Nat) (hin : xOff + bitIndex < 64 ∧ yOff + row < 32) :
    drawBit xOff yOff row byte acc bitIndex =
      (upd acc.1 ((yOff + row) * 64 + (xOff + bitIndex))
        (acc.1 ((yOff + row) * 64 + (xOff + bitIndex)) ^^^ ((byte >>> (7 - bitIndex)) &&& 0x01)),
       if acc.1 ((yOff + row) * 64 + (xOff + bitIndex)) = 1 ∧
           ((byte >>> (7 - bitIndex)) &&& 0x01) = 1
       then 1 else acc.2) := by
  simp [drawBit, DISPLAY_WIDTH, DISPLAY_HEIGHT, hin]

theorem drawBit_out (xOff yOff row byte : Nat) (acc : (Nat → Nat) × Nat)
    (bitIndex : Nat) (hout : ¬(xOff + bitIndex < 64 ∧ yOff + row < 32)) :
    drawBit xOff yOff row byte acc bitIndex = acc := by
  simp only [drawBit, DISPLAY_WIDTH, DISPLAY_HEIGHT]
  rw [if_neg hout]

theorem drawRowBits_spec (xOff yOff row byte : Nat) :
    ∀ (k : Nat) (acc : (Nat → Nat) × Nat),
      (∀ b, b < k → xOff + b < 64 → yOff + row < 32 →
        (drawRowBits xOff yOff row byte k acc).1 ((yOff + row) * 64 + (xOff + b))
          = acc.1 ((yOff + row) * 64 + (xOff + b)) ^^^ ((byte >>> (7 - b)) &&& 0x01)) ∧
      (∀ i, (∀ b, b < k →
          ¬(xOff + b < 64 ∧ yOff + row < 32 ∧ i = (yOff + row) * 64 + (xOff + b))) →
        (drawRowBits xOff yOff row byte k acc).1 i = acc.1 i) ∧
      ((∃ b, b < k ∧ xOff + b < 64 ∧ yOff + row < 32 ∧
          ((byte >>> (7 - b)) &&& 0x01) = 1 ∧
          acc.1 ((yOff + row) * 64 + (xOff + b)) = 1) →
        (drawRowBits xOff yOff row byte k acc).2 = 1) ∧
      ((¬ ∃ b, b < k ∧ xOff + b < 64 ∧ yOff + row < 32 ∧
          ((byte >>> (7 - b)) &&& 0x01) = 1 ∧
          acc.1 ((yOff + row) * 64 + (xOff + b)) = 1) →
        (drawRowBits xOff yOff row byte k acc).2 = acc.2) := by
  intro k
  induction k with
  | zero =>
    intro acc
    refine ⟨fun b hb => absurd hb (by omega), fun i _ => rfl, ?_, fun _ => rfl⟩
    rintro ⟨b, hb, _⟩
    omega
  | succ k ih =>
    intro acc
    obtain ⟨ih1, ih2, ihv1, ihv0⟩ := ih acc
    by_cases hin : xOff + k < 64 ∧ yOff + row < 32
    · have hacc : (drawRowBits xOff yOff row byte k acc).1 ((yOff + row) * 64 + (xOff + k))
          = acc.1 ((yOff + row) * 64 + (xOff + k)) := by
        apply ih2
        rintro b hb ⟨hb1, hb2, hb3⟩
        omega
      simp only [drawRowBits, drawBit_in xOff yOff row byte _ k hin, hacc]
      refine ⟨?_, ?_, ?_, ?_⟩
      · intro b hb hbx hby
        by_cases hbk : b = k
        · subst hbk
          exact upd_self _ _ _
        · have hne : (yOff + row) * 64 + (xOff + b) ≠ (yOff + row) * 64 + (xOff + k) := by
            omega
          rw [upd_other _ _ _ _ hne]
          exact ih1 b (by omega) hbx hby
      · intro i hi
        have hik : i ≠ (yOff + row) * 64 + (xOff + k) := fun hcontra =>
          hi k (by omega) ⟨hin.1, hin.2, hcontra⟩
        rw [upd_other _ _ _ _ hik]
        exact ih2 i (fun b hb => hi b (by omega))
      · rintro ⟨b, hb, hbx, hby, hsb, hfb⟩
        by_cases hcol : acc.1 ((yOff + row) * 64 + (xOff + k)) = 1 ∧
            ((byte >>> (7 - k)) &&& 0x01) = 1
        · rw [if_pos hcol]
        · rw [if_neg hcol]
          by_cases hbk : b = k
          · subst hbk
            exact absurd ⟨hfb, hsb⟩ hcol
          · exact ihv1 ⟨b, by omega, hbx, hby, hsb, hfb⟩
      · intro hno
        have hcol : ¬(acc.1 ((yOff + row) * 64 + (xOff + k)) = 1 ∧
            ((byte >>> (7 - k)) &&& 0x01) = 1) := fun ⟨h1, h2⟩ =>
          hno ⟨k, by omega, hin.1, hin.2, h2, h1⟩
        rw [if_neg hcol]
        exact ihv0 (fun ⟨b, hb, hbx, hby, hsb, hfb⟩ =>
          hno ⟨b, by omega, hbx, hby, hsb, hfb⟩)
    · simp only [drawRowBits, drawBit_out xOff yOff row byte _ k hin]
      refine ⟨?_, ?_, ?_, ?_⟩
      · intro b hb hbx hby
        by_cases hbk : b = k
        · subst hbk
          exact absurd ⟨hbx, hby⟩ hin
        · exact ih1 b (by omega) hbx hby
      · intro i hi
        exact ih2 i (fun b hb => hi b (by omega))
      · rintro ⟨b, hb, hbx, hby, hsb, hfb⟩
        by_cases hbk : b = k
        · subst hbk
          exact absurd ⟨hbx, hby⟩ hin
        · exact ihv1 ⟨b, by omega, hbx, hby, hsb, hfb⟩
      · intro hno
        exact ihv0 (fun ⟨b, hb, hbx, hby, hsb, hfb⟩ =>
          hno ⟨b, by omega, hbx, hby, hsb, hfb⟩)

theorem drawRows_spec (xOff yOff : Nat) (bytes : Nat → Nat) :
    ∀ (m : Nat) (acc : (Nat → Nat) × Nat),
      (∀ r b, r < m → b < 8 → xOff + b < 64 → yOff + r < 32 →
        (drawRows xOff yOff bytes m acc).1 ((yOff + r) * 64 + (xOff + b))
          = acc.1 ((yOff + r) * 64 + (xOff + b)) ^^^ ((bytes r >>> (7 - b)) &&& 0x01)) ∧
      (∀ i, (∀ r b, r < m → b < 8 →
          ¬(xOff + b < 64 ∧ yOff + r < 32 ∧ i = (yOff + r) * 64 + (xOff + b))) →
        (drawRows xOff yOff bytes m acc).1 i = acc.1 i) ∧
      ((∃ r, r < m ∧ ∃ b, b < 8 ∧ xOff + b < 64 ∧ yOff + r < 32 ∧
          ((bytes r >>> (7 - b)) &&& 0x01) = 1 ∧
          acc.1 ((yOff + r) * 64 + (xOff + b)) = 1) →
        (drawRows xOff yOff bytes m acc).2 = 1) ∧
      ((¬ ∃ r, r < m ∧ ∃ b, b < 8 ∧ xOff + b < 64 ∧ yOff + r < 32 ∧
          ((bytes r >>> (7 - b)) &&& 0x01) = 1 ∧
          acc.1 ((yOff + r) * 64 + (xOff + b)) = 1) →
        (drawRows xOff yOff bytes m acc).2 = acc.2) := by
  intro m
  induction m with
  | zero =>
    intro acc
    refine ⟨fun r b hr => absurd hr (by omega), fun i _ => rfl, ?_, fun _ => rfl⟩
    rintro ⟨r, hr, _⟩
    omega
  | succ m ih =>
    intro acc
    obtain ⟨ih1, ih2, ihv1, ihv0⟩ := ih acc
    obtain ⟨hb1, hb2, hbv1, hbv0⟩ :=
      drawRowBits_spec xOff yOff m (bytes m) 8 (drawRows xOff yOff bytes m acc)
    have hrowm : ∀ b, b < 8 → xOff + b < 64 → yOff + m < 32 →
        (drawRows xOff yOff bytes m acc).1 ((yOff + m) * 64 + (xOff + b))
          = acc.1 ((yOff + m) * 64 + (xOff + b)) := by
      intro b hb hbx hby
      apply ih2
      rintro r b2 hr hb2 ⟨hx2, hy2, heq⟩
      omega
    simp only [drawRows]
    refine ⟨?_, ?_, ?_, ?_⟩
    · intro r b hr hb hbx hby
      by_cases hrm : r = m
      · subst hrm
        rw [hb1 b hb hbx hby, hrowm b hb hbx hby]
      · have hfr : (drawRowBits xOff yOff m (bytes m) 8 (drawRows xOff yOff bytes m acc)).1
            ((yOff + r) * 64 + (xOff + b))
            = (drawRows xOff yOff bytes m acc).1 ((yOff + r) * 64 + (xOff + b)) := by
          apply hb2
          rintro b2 hb2 ⟨hx2, hy2, heq⟩
          omega
        rw [hfr]
        exact ih1 r b (by omega) hb hbx hby
    · intro i hi
      have h1 : (drawRowBits xOff yOff m (bytes m) 8 (drawRows xOff yOff bytes m acc)).1 i
          = (drawRows xOff yOff bytes m acc).1 i := by
        apply hb2
        intro b hb hcontra
        exact hi m b (by omega) hb hcontra
      rw [h1]
      exact ih2 i (fun r b hr hb => hi r b (by omega) hb)
    · rintro ⟨r, hr, b, hb, hbx, hby, hsb, hfb⟩
      by_cases hrm : r = m
      · subst hrm
        apply hbv1
        refine ⟨b, hb, hbx, hby, hsb, ?_⟩
        rw [hrowm b hb hbx hby]
        exact hfb
      · by_cases hcolm : ∃ b2, b2 < 8 ∧ xOff + b2 < 64 ∧ yOff + m < 32 ∧
            ((bytes m >>> (7 - b2)) &&& 0x01) = 1 ∧
            (drawRows xOff yOff bytes m acc).1 ((yOff + m) * 64 + (xOff + b2)) = 1
        · exact hbv1 hcolm
        · rw [hbv0 hcolm]
          exact ihv1 ⟨r, by omega, b, hb, hbx, hby, hsb, hfb⟩
    · intro hno
      have hcolm : ¬ ∃ b2, b2 < 8 ∧ xOff + b2 < 64 ∧ yOff + m < 32 ∧
          ((bytes m >>> (7 - b2)) &&& 0x01) = 1 ∧
          (drawRows xOff yOff bytes m acc).1 ((yOff + m) * 64 + (xOff + b2)) = 1 := by
        rintro ⟨b2, hb2, hbx2, hby2, hsb2, hfb2⟩
        rw [hrowm b2 hb2 hbx2 hby2] at hfb2
        exact hno ⟨m, by omega, b2, hb2, hbx2, hby2, hsb2, hfb2⟩
      rw [hbv0 hcolm]
      exact ihv0 (fun ⟨r, hr, b, hb, hbx, hby, hsb, hfb⟩ =>
        hno ⟨r, by omega, b, hb, hbx, hby, hsb, hfb⟩)

/-! ### C2: Dxyn draw semantics -/

/-- Behaviour asserted by claim C2 for a draw whose sprite read is in
bounds: with anchor `(Vx mod 64, Vy mod 32)`, every sprite pixel whose
target is inside the 64x32 grid is XOR-ed into the frame buffer, every
other frame-buffer cell (in particular any would-be wrapped target) is
untouched, VF becomes 1 when some on sprite bit meets an on frame-buffer
pixel and 0 otherwise. -/
def DrawSpec (s : Chip8) (x y n : Nat) : Prop :=
  ∃ t, draw s x y n = .ok t ∧
    (∀ r b, r < n → b < 8 →
      s.variableRegisters x % 64 + b < 64 → s.variableRegisters y % 32 + r < 32 →
      t.frameBuffer
          ((s.variableRegisters y % 32 + r) * 64 + (s.variableRegisters x % 64 + b)) =
        s.frameBuffer
          ((s.variableRegisters y % 32 + r) * 64 + (s.variableRegisters x % 64 + b)) ^^^
          ((s.ram (s.indexRegister + r) >>> (7 - b)) &&& 0x01)) ∧
    (∀ i, (∀ r b, r < n → b < 8 →
        ¬(s.variableRegisters x % 64 + b < 64 ∧ s.variableRegisters y % 32 + r < 32 ∧
          i = (s.variableRegisters y % 32 + r) * 64 + (s.variableRegisters x % 64 + b))) →
      t.frameBuffer i = s.frameBuffer i) ∧
    ((∃ r, r < n ∧ ∃ b, b < 8 ∧
        s.variableRegisters x % 64 + b < 64 ∧ s.variableRegisters y % 32 + r < 32 ∧
        ((s.ram (s.indexRegister + r) >>> (7 - b)) &&& 0x01) = 1 ∧
        s.frameBuffer
          ((s.variableRegisters y % 32 + r) * 64 + (s.variableRegisters x % 64 + b)) = 1) →
      t.variableRegisters 0xF = 1) ∧
    ((¬ ∃ r, r < n ∧ ∃ b, b < 8 ∧
        s.variableRegisters x % 64 + b < 64 ∧ s.variableRegisters y % 32 + r < 32 ∧
        ((s.ram (s.indexRegister + r) >>> (7 - b)) &&& 0x01) = 1 ∧
        s.frameBuffer
          ((s.variableRegisters y % 32 + r) * 64 + (s.variableRegisters x % 64 + b)) = 1) →
      t.variableRegisters 0xF = 0)

/-- C2: for every Dxyn draw with `index_register + n` within memory
bounds, the sprite anchored at `(Vx mod 64, Vy mod 32)` is XOR-combined
into the frame buffer with per-pixel clipping (no wrap, no write outside
the grid), and VF ends 1 exactly on a collision, 0 otherwise. -/
theorem c2_draw (s : Chip8) (x y n : Nat) (hx : x < 16) (hy : y < 16)
    (hI : s.indexRegister + n ≤ 4096) : DrawSpec s x y n := by
  obtain ⟨h1, h2, hv1, hv0⟩ := drawRows_spec (s.variableRegisters x % 64)
    (s.variableRegisters y % 32) (fun r => s.ram (s.indexRegister + r)) n
    (s.frameBuffer, 0)
  have hok : draw s x y n = .ok
      { s with
        frameBuffer := (drawRows (s.variableRegisters x % 64)
          (s.variableRegisters y % 32) (fun r => s.ram (s.indexRegister + r)) n
          (s.frameBuffer, 0)).1,
        variableRegisters := upd s.variableRegisters 0xF
          (drawRows (s.variableRegisters x % 64) (s.variableRegisters y % 32)
            (fun r => s.ram (s.indexRegister + r)) n (s.frameBuffer, 0)).2 } := by
    simp only [draw, MEMORY_SIZE, DISPLAY_WIDTH, DISPLAY_HEIGHT]
    rw [if_pos hI]
  refine ⟨_, hok, ?_, ?_, ?_, ?_⟩
  · intro r b hr hb hbx hby
    exact h1 r b hr hb hbx hby
  · intro i hi
    exact h2 i hi
  · intro hcol
    show upd s.variableRegisters 0xF _ 0xF = 1
    rw [upd_self]
    exact hv1 hcol
  · intro hno
    show upd s.variableRegisters 0xF _ 0xF = 0
    rw [upd_self]
    exact hv0 hno

/-- Witness for C2 at a concrete input. -/
theorem c2_draw_witness :
    ((0 : Nat) < 16 ∧ (1 : Nat) < 16 ∧
      (chip8New EmulatorType.CosmacVip (fun _ => 0)).indexRegister + 2 ≤ 4096) ∧
      DrawSpec (chip8New EmulatorType.CosmacVip (fun _ => 0)) 0 1 2 :=
  ⟨by refine ⟨by decide, by decide, by decide⟩,
   c2_draw (chip8New EmulatorType.CosmacVip (fun _ => 0)) 0 1 2
     (by decide) (by decide) (by decide)⟩

/-! ### C8: draw clipping and XOR self-inverse at (60,30) -/

/-- Concrete state for claim C8: an 8-wide 4-tall all-ones sprite at
ram[0x200..0x204), anchor registers V0 = 60, V1 = 30, blank screen. -/
def c8State : Chip8 :=
  { chip8New EmulatorType.CosmacVip (fun _ => 0) with
    indexRegister := 0x200,
    ram := fun i => if 0x200 ≤ i ∧ i < 0x204 then 0xFF else 0,
    variableRegisters := fun i => if i = 0 then 60 else if i = 1 then 30 else 0 }

/-- Frame buffer and VF after the first D014 draw on `c8State`. -/
def c8After1 : Chip8 :=
  match draw c8State 0 1 4 with
  | .ok t => t
  | .error _ => c8State

/-- Frame buffer and VF after re-drawing the identical sprite. -/
def c8After2 : Chip8 :=
  match draw c8After1 0 1 4 with
  | .ok t => t
  | .error _ => c8After1

set_option maxRecDepth 4096 in
/-- C8: drawing the 8x4 all-ones sprite anchored at (60,30) writes only
the clipped cells 60 ≤ x < 64, 30 ≤ y < 32 (no wrap into any other grid
cell), and drawing it again XORs every touched cell back to 0 with
VF = 1 on the second draw. -/
theorem c8_draw_clip_self_inverse :
    (∀ px, px < 64 → ∀ py, py < 32 → ¬(60 ≤ px ∧ 30 ≤ py) →
      c8After1.frameBuffer (py * 64 + px) = 0) ∧
    (∀ px, px < 64 → ∀ py, py < 32 → 60 ≤ px → 30 ≤ py →
      c8After1.frameBuffer (py * 64 + px) = 1) ∧
    (∀ py, py < 32 → ∀ px, px < 64 → c8After2.frameBuffer (py * 64 + px) = 0) ∧
    c8After1.variableRegisters 0xF = 0 ∧
    c8After2.variableRegisters 0xF = 1 := by
  decide

/-! ### C9: frame buffer cells are always 0 or 1 -/

/-- Invariant of claim C9: every frame-buffer entry is 0 or 1. -/
def FbInv (s : Chip8) : Prop :=
  ∀ i, s.frameBuffer i = 0 ∨ s.frameBuffer i = 1

theorem xor_le_one {a b : Nat} (ha : a ≤ 1) (hb : b ≤ 1) : a ^^^ b ≤ 1 := by
  interval_cases a <;> interval_cases b <;> decide

theorem drawRowBits_fb_le (xOff yOff row byte : Nat) :
    ∀ (k : Nat) (acc : (Nat → Nat) × Nat), (∀ j, acc.1 j ≤ 1) →
      ∀ j, (drawRowBits xOff yOff row byte k acc).1 j ≤ 1 := by
  intro k
  induction k with
  | zero => intro acc hacc j; exact hacc j
  | succ k ih =>
    intro acc hacc j
    simp only [drawRowBits]
    by_cases hin : xOff + k < 64 ∧ yOff + row < 32
    · rw [drawBit_in xOff yOff row byte _ k hin]
      show upd _ _ _ j ≤ 1
      simp only [upd]
      split
      · exact xor_le_one (ih acc hacc _) (Nat.and_le_right)
      · exact ih acc hacc j
    · rw [drawBit_out xOff yOff row byte _ k hin]
      exact ih acc hacc j

theorem drawRows_fb_le (xOff yOff : Nat) (bytes : Nat → Nat) :
    ∀ (m : Nat) (acc : (Nat → Nat) × Nat), (∀ j, acc.1 j ≤ 1) →
      ∀ j, (drawRows xOff yOff bytes m acc).1 j ≤ 1 := by
  intro m
  induction m with
  | zero => intro acc hacc j; exact hacc j
  | succ m ih =>
    intro acc hacc j
    simp only [drawRows]
    exact drawRowBits_fb_le xOff yOff m (bytes m) 8 _ (ih acc hacc) j

theorem draw_fb_inv (s : Chip8) (x y n : Nat) (t : Chip8) (hinv : FbInv s)
    (h : draw s x y n = .ok t) : FbInv t := by
  simp only [draw] at h
  split at h
  · injection h with h2
    subst h2
    intro i
    have hle : ∀ j, s.frameBuffer j ≤ 1 := fun j => by
      rcases hinv j with h0 | h1 <;> omega
    have hb := drawRows_fb_le (s.variableRegisters x % DISPLAY_WIDTH)
      (s.variableRegisters y % DISPLAY_HEIGHT)
      (fun r => s.ram (s.indexRegister + r)) n (s.frameBuffer, 0) hle i
    show (drawRows _ _ _ n (s.frameBuffer, 0)).1 i = 0 ∨
      (drawRows _ _ _ n (s.frameBuffer, 0)).1 i = 1
    omega
  · exact absurd h (by simp)

theorem returnFromSubroutine_fb (s t : Chip8) (h : returnFromSubroutine s = .ok t) :
    t.frameBuffer = s.frameBuffer := by
  simp only [returnFromSubroutine] at h
  split at h
  · injection h with h2
    subst h2
    rfl
  · exact absurd h (by simp)

theorem callSubroutine_fb (s : Chip8) (nnn : Nat) (t : Chip8)
    (h : callSubroutine s nnn = .ok t) : t.frameBuffer = s.frameBuffer := by
  simp only [callSubroutine] at h
  split at h
  · injection h with h2
    subst h2
    rfl
  · exact absurd h (by simp)

theorem skipIfKeyDown_fb (s : Chip8) (x : Nat) (t : Chip8)
    (h : skipIfKeyDown s x = .ok t) : t.frameBuffer = s.frameBuffer := by
  simp only [skipIfKeyDown] at h
  split at h
  · split at h <;> (injection h with h2; subst h2; rfl)
  · exact absurd h (by simp)

theorem skipIfKeyUp_fb (s : Chip8) (x : Nat) (t : Chip8)
    (h : skipIfKeyUp s x = .ok t) : t.frameBuffer = s.frameBuffer := by
  simp only [skipIfKeyUp] at h
  split at h
  · split at h <;> (injection h with h2; subst h2; rfl)
  · exact absurd h (by simp)

theorem putVxDecimalDigitsIntoMemory_fb (s : Chip8) (x : Nat) (t : Chip8)
    (h : putVxDecimalDigitsIntoMemory s x = .ok t) :
    t.frameBuffer = s.frameBuffer := by
  simp only [putVxDecimalDigitsIntoMemory] at h
  split at h
  · injection h with h2
    subst h2
    rfl
  · exact absurd h (by simp)

theorem storeRegsGo_fb (start : Nat) :
    ∀ (k i : Nat) (s t : Chip8), storeRegsGo start k i s = .ok t →
      t.frameBuffer = s.frameBuffer := by
  intro k
  induction k with
  | zero =>
    intro i s t h
    injection h with h2
    subst h2
    rfl
  | succ k ih =>
    intro i s t h
    simp only [storeRegsGo] at h
    split at h
    · split at h
      · rw [ih (i + 1) _ t h]
      · rw [ih (i + 1) _ t h]
    · exact absurd h (by simp)

theorem loadRegsGo_fb (start : Nat) :
    ∀ (k i : Nat) (s t : Chip8), loadRegsGo start k i s = .ok t →
      t.frameBuffer = s.frameBuffer := by
  intro k
  induction k with
  | zero =>
    intro i s t h
    injection h with h2
    subst h2
    rfl
  | succ k ih =>
    intro i s t h
    simp only [loadRegsGo] at h
    split at h
    · split at h
      · rw [ih (i + 1) _ t h]
      · rw [ih (i + 1) _ t h]
    · exact absurd h (by simp)

theorem storeVariableRegistersToMemory_fb (s : Chip8) (x : Nat) (t : Chip8)
    (h : storeVariableRegistersToMemory s x = .ok t) :
    t.frameBuffer = s.frameBuffer :=
  storeRegsGo_fb s.indexRegister (x + 1) 0 s t h

theorem loadVariableRegistersFromMemory_fb (s : Chip8) (x : Nat) (t : Chip8)
    (h : loadVariableRegistersFromMemory s x = .ok t) :
    t.frameBuffer = s.frameBuffer :=
  loadRegsGo_fb s.indexRegister (x + 1) 0 s t h

set_option maxHeartbeats 1600000 in
set_option maxRecDepth 4096 in
theorem dispatch_fb_inv (s : Chip8) (op : Nat) (s1 : Chip8) (hinv : FbInv s)
    (h : dispatch s op = .ok s1) : FbInv s1 := by
  unfold dispatch at h
  by_cases hc1 : op = 0x00E0
  · rw [if_pos hc1] at h
    injection h with h2; subst h2; intro i; left; rfl
  · rw [if_neg hc1] at h
    by_cases hc2 : op = 0x00EE
    · rw [if_pos hc2] at h
      intro i; rw [returnFromSubroutine_fb _ _ h]; exact hinv i
    · rw [if_neg hc2] at h
      by_cases hc3 : 0x1000 ≤ op ∧ op ≤ 0x1FFF
      · rw [if_pos hc3] at h
        injection h with h2; subst h2; exact hinv
      · rw [if_neg hc3] at h
        by_cases hc4 : 0x2000 ≤ op ∧ op ≤ 0x2FFF
        · rw [if_pos hc4] at h
          intro i; rw [callSubroutine_fb _ _ _ h]; exact hinv i
        · rw [if_neg hc4] at h
          by_cases hc5 : 0x3000 ≤ op ∧ op ≤ 0x3FFF
          · rw [if_pos hc5] at h
            injection h with h2; subst h2; simp only [skipInstructionIfVxEqualsNn, skipInstructionIfVxNotEqualsNn, skipInstructionIfVxEqualsVy, skipInstructionIfVxNotEqualsVy, putKeyIntoVx]; split <;> exact hinv
          · rw [if_neg hc5] at h
            by_cases hc6 : 0x4000 ≤ op ∧ op ≤ 0x4FFF
            · rw [if_pos hc6] at h
              injection h with h2; subst h2; simp only [skipInstructionIfVxEqualsNn, skipInstructionIfVxNotEqualsNn, skipInstructionIfVxEqualsVy, skipInstructionIfVxNotEqualsVy, putKeyIntoVx]; split <;> exact hinv
            · rw [if_neg hc6] at h
              by_cases hc7 : 0x5000 ≤ op ∧ op ≤ 0x5FFF
              · rw [if_pos hc7] at h
                injection h with h2; subst h2; simp only [skipInstructionIfVxEqualsNn, skipInstructionIfVxNotEqualsNn, skipInstructionIfVxEqualsVy, skipInstructionIfVxNotEqualsVy, putKeyIntoVx]; split <;> exact hinv
              · rw [if_neg hc7] at h
                by_cases hc8 : 0x6000 ≤ op ∧ op ≤ 0x6FFF
                · rw [if_pos hc8] at h
                  injection h with h2; subst h2; exact hinv
                · rw [if_neg hc8] at h
                  by_cases hc9 : 0x7000 ≤ op ∧ op ≤ 0x7FFF
                  · rw [if_pos hc9] at h
                    injection h with h2; subst h2; exact hinv
                  · rw [if_neg hc9] at h
                    by_cases hc10 : 0x8000 ≤ op ∧ op ≤ 0x8FFF
                    · rw [if_pos hc10] at h
                      by_cases hc11 : opN op = 0x0
                      · rw [if_pos hc11] at h
                        injection h with h2; subst h2; exact hinv
                      · rw [if_neg hc11] at h
                        by_cases hc12 : opN op = 0x1
                        · rw [if_pos hc12] at h
                          injection h with h2; subst h2; exact hinv
                        · rw [if_neg hc12] at h
                          by_cases hc13 : opN op = 0x2
                          · rw [if_pos hc13] at h
                            injection h with h2; subst h2; exact hinv
                          · rw [if_neg hc13] at h
                            by_cases hc14 : opN op = 0x3
                            · rw [if_pos hc14] at h
                              injection h with h2; subst h2; exact hinv
                            · rw [if_neg hc14] at h
                              by_cases hc15 : opN op = 0x4
                              · rw [if_pos hc15] at h
                                injection h with h2; subst h2; exact hinv
                              · rw [if_neg hc15] at h
                                by_cases hc16 : opN op = 0x5
                                · rw [if_pos hc16] at h
                                  injection h with h2; subst h2; exact hinv
                                · rw [if_neg hc16] at h
                                  by_cases hc17 : opN op = 0x6
                                  · rw [if_pos hc17] at h
                                    injection h with h2; subst h2; exact hinv
                                  · rw [if_neg hc17] at h
                                    by_cases hc18 : opN op = 0x7
                                    · rw [if_pos hc18] at h
                                      injection h with h2; subst h2; exact hinv
                                    · rw [if_neg hc18] at h
                                      by_cases hc19 : opN op = 0xE
                                      · rw [if_pos hc19] at h
                                        injection h with h2; subst h2; exact hinv
                                      · rw [if_neg hc19] at h
                                        exact absurd h (by simp)
                    · rw [if_neg hc10] at h
                      by_cases hc20 : 0x9000 ≤ op ∧ op ≤ 0x9FFF
                      · rw [if_pos hc20] at h
                        injection h with h2; subst h2; simp only [skipInstructionIfVxEqualsNn, skipInstructionIfVxNotEqualsNn, skipInstructionIfVxEqualsVy, skipInstructionIfVxNotEqualsVy, putKeyIntoVx]; split <;> exact hinv
                      · rw [if_neg hc20] at h
                        by_cases hc21 : 0xA000 ≤ op ∧ op ≤ 0xAFFF
                        · rw [if_pos hc21] at h
                          injection h with h2; subst h2; exact hinv
                        · rw [if_neg hc21] at h
                          by_cases hc22 : 0xB000 ≤ op ∧ op ≤ 0xBFFF
                          · rw [if_pos hc22] at h
                            injection h with h2; subst h2; exact hinv
                          · rw [if_neg hc22] at h
                            by_cases hc23 : 0xC000 ≤ op ∧ op ≤ 0xCFFF
                            · rw [if_pos hc23] at h
                              injection h with h2; subst h2; exact hinv
                            · rw [if_neg hc23] at h
                              by_cases hc24 : 0xD000 ≤ op ∧ op ≤ 0xDFFF
                              · rw [if_pos hc24] at h
                                exact draw_fb_inv _ _ _ _ _ hinv h
                              · rw [if_neg hc24] at h
                                by_cases hc25 : 0xE000 ≤ op ∧ op ≤ 0xEFFF
                                · rw [if_pos hc25] at h
                                  by_cases hc26 : opNN op = 0x9E
                                  · rw [if_pos hc26] at h
                                    intro i; rw [skipIfKeyDown_fb _ _ _ h]; exact hinv i
                                  · rw [if_neg hc26] at h
                                    by_cases hc27 : opNN op = 0xA1
                                    · rw [if_pos hc27] at h
                                      intro i; rw [skipIfKeyUp_fb _ _ _ h]; exact hinv i
                                    · rw [if_neg hc27] at h
                                      exact absurd h (by simp)
                                · rw [if_neg hc25] at h
                                  by_cases hc28 : 0xF000 ≤ op ∧ op ≤ 0xFFFF
                                  · rw [if_pos hc28] at h
                                    by_cases hc29 : opNN op = 0x07
                                    · rw [if_pos hc29] at h
                                      injection h with h2; subst h2; exact hinv
                                    · rw [if_neg hc29] at h
                                      by_cases hc30 : opNN op = 0x0A
                                      · rw [if_pos hc30] at h
                                        injection h with h2; subst h2; intro i; simp only [putKeyIntoVx]; rcases hfind : findReleased s.keypadState s.previousKeypadState with _ | j <;> exact hinv i
                                      · rw [if_neg hc30] at h
                                        by_cases hc31 : opNN op = 0x15
                                        · rw [if_pos hc31] at h
                                          injection h with h2; subst h2; exact hinv
                                        · rw [if_neg hc31] at h
                                          by_cases hc32 : opNN op = 0x18
                                          · rw [if_pos hc32] at h
                                            injection h with h2; subst h2; exact hinv
                                          · rw [if_neg hc32] at h
                                            by_cases hc33 : opNN op = 0x1E
                                            · rw [if_pos hc33] at h
                                              injection h with h2; subst h2; exact hinv
                                            · rw [if_neg hc33] at h
                                              by_cases hc34 : opNN op = 0x29
                                              · rw [if_pos hc34] at h
                                                injection h with h2; subst h2; exact hinv
                                              · rw [if_neg hc34] at h
                                                by_cases hc35 : opNN op = 0x33
                                                · rw [if_pos hc35] at h
                                                  intro i; rw [putVxDecimalDigitsIntoMemory_fb _ _ _ h]; exact hinv i
                                                · rw [if_neg hc35] at h
                                                  by_cases hc36 : opNN op = 0x55
                                                  · rw [if_pos hc36] at h
                                                    intro i; rw [storeVariableRegistersToMemory_fb _ _ _ h]; exact hinv i
                                                  · rw [if_neg hc36] at h
                                                    by_cases hc37 : opNN op = 0x65
                                                    · rw [if_pos hc37] at h
                                                      intro i; rw [loadVariableRegistersFromMemory_fb _ _ _ h]; exact hinv i
                                                    · rw [if_neg hc37] at h
                                                      exact absurd h (by simp)
                                  · rw [if_neg hc28] at h
                                    exact absurd h (by simp)

theorem decrementTimers_fb (s : Chip8) :
    (Chip8.decrementTimers s).frameBuffer = s.frameBuffer := by
  simp only [Chip8.decrementTimers]
  split <;> split <;> rfl

theorem loadProgram_fb (s : Chip8) (program : List Nat) (t : Chip8)
    (h : Chip8.loadProgram s program = .ok t) : t.frameBuffer = s.frameBuffer := by
  simp only [Chip8.loadProgram] at h
  split at h
  · injection h with h2
    subst h2
    rfl
  · exact absurd h (by simp)

/-- C9: every frame-buffer entry is 0 or 1 in the freshly constructed
state, and this is preserved by every state-mutating operation of the
public interface (load_program, key_down, key_up, decrement_timers and
execute_next_instruction — in particular by draw and clear_screen), so
`frame_buffer` never exposes a value other than 0 or 1. -/
theorem c9_frame_buffer_invariant :
    (∀ (et : EmulatorType) (rng : Nat → Nat), FbInv (chip8New et rng)) ∧
    (∀ (s : Chip8) (program : List Nat) (t : Chip8),
      FbInv s → Chip8.loadProgram s program = .ok t → FbInv t) ∧
    (∀ (s : Chip8) (k : Chip8Key), FbInv s → FbInv (Chip8.keyDown s k)) ∧
    (∀ (s : Chip8) (k : Chip8Key), FbInv s → FbInv (Chip8.keyUp s k)) ∧
    (∀ s : Chip8, FbInv s → FbInv (Chip8.decrementTimers s)) ∧
    (∀ (s t : Chip8), FbInv s → executeNextInstruction s = .ok t → FbInv t) := by
  refine ⟨?_, ?_, ?_, ?_, ?_, ?_⟩
  · intro et rng i
    left
    rfl
  · intro s program t hinv h i
    rw [loadProgram_fb s program t h]
    exact hinv i
  · intro s k hinv
    exact hinv
  · intro s k hinv
    exact hinv
  · intro s hinv i
    rw [decrementTimers_fb s]
    exact hinv i
  · intro s t hinv h
    unfold executeNextInstruction at h
    cases hf : fetchNextOpcode s with
    | error e =>
      rw [hf] at h
      exact absurd h (by simp)
    | ok op =>
      rw [hf] at h
      exact dispatch_fb_inv
        { s with programCounter := (s.programCounter + 2) % 65536 } op t hinv h

/-- Witness for C9 at a concrete input. -/
theorem c9_frame_buffer_invariant_witness :
    FbInv (chip8New EmulatorType.CosmacVip (fun _ => 0)) ∧
      FbInv (Chip8.keyDown (chip8New EmulatorType.CosmacVip (fun _ => 0)) Chip8Key.Three) :=
  ⟨fun i => Or.inl rfl,
   c9_frame_buffer_invariant.2.2.1 (chip8New EmulatorType.CosmacVip (fun _ => 0))
     Chip8Key.Three (fun i => Or.inl rfl)⟩

/-! ### C1: faults surface as errors -/

/-- The word that `fetch_next_opcode` composes at the program counter. -/
def fetchedWord (s : Chip8) : Nat :=
  (s.ram s.programCounter <<< 8) ||| s.ram (s.programCounter + 1)

/-- An opcode matches a defined instruction pattern of the dispatcher
(the complement of the `panic_for_invalid_opcode` wildcard arms). -/
def DecodeValid (op : Nat) : Prop :=
  op = 0x00E0 ∨ op = 0x00EE ∨
  (0x1000 ≤ op ∧ op ≤ 0x7FFF) ∨
  (0x8000 ≤ op ∧ op ≤ 0x8FFF ∧
    (opN op = 0x0 ∨ opN op = 0x1 ∨ opN op = 0x2 ∨ opN op = 0x3 ∨ opN op = 0x4 ∨
     opN op = 0x5 ∨ opN op = 0x6 ∨ opN op = 0x7 ∨ opN op = 0xE)) ∨
  (0x9000 ≤ op ∧ op ≤ 0xDFFF) ∨
  (0xE000 ≤ op ∧ op ≤ 0xEFFF ∧ (opNN op = 0x9E ∨ opNN op = 0xA1)) ∨
  (0xF000 ≤ op ∧ op ≤ 0xFFFF ∧
    (opNN op = 0x07 ∨ opNN op = 0x0A ∨ opNN op = 0x15 ∨ opNN op = 0x18 ∨
     opNN op = 0x1E ∨ opNN op = 0x29 ∨ opNN op = 0x33 ∨ opNN op = 0x55 ∨
     opNN op = 0x65))

/-- Fault conditions of claim C1 on the input state of one
`execute_next_instruction` call: a fetch touching an address outside
[0,4096), an undecodable opcode, a push with the stack full, a pop with
the stack empty, or a ram dereference outside [0,4096) by Dxyn, Fx33,
Fx55 or Fx65. -/
def C1Fault (s : Chip8) : Prop :=
  4096 ≤ s.programCounter + 1 ∨
  (s.programCounter + 1 < 4096 ∧
    (¬ DecodeValid (fetchedWord s) ∨
     (0x2000 ≤ fetchedWord s ∧ fetchedWord s ≤ 0x2FFF ∧ s.stackPointer = 16) ∨
     (fetchedWord s = 0x00EE ∧ s.stackPointer = 0) ∨
     (0xD000 ≤ fetchedWord s ∧ fetchedWord s ≤ 0xDFFF ∧
       4096 < s.indexRegister + opN (fetchedWord s)) ∨
     (0xF000 ≤ fetchedWord s ∧ fetchedWord s ≤ 0xFFFF ∧
       opNN (fetchedWord s) = 0x33 ∧ 4096 ≤ s.indexRegister + 2) ∨
     (0xF000 ≤ fetchedWord s ∧ fetchedWord s ≤ 0xFFFF ∧
       (opNN (fetchedWord s) = 0x55 ∨ opNN (fetchedWord s) = 0x65) ∧
       4096 ≤ s.indexRegister + opX (fetchedWord s))))

instance decidableDecodeValid (op : Nat) : Decidable (DecodeValid op) := by
  unfold DecodeValid
  exact inferInstance

instance decidableC1Fault (s : Chip8) : Decidable (C1Fault s) := by
  unfold C1Fault
  exact inferInstance

theorem fetchNextOpcode_fault (s : Chip8) (h : 4096 ≤ s.programCounter + 1) :
    fetchNextOpcode s = .error .outOfBounds := by
  simp only [fetchNextOpcode, MEMORY_SIZE]
  by_cases h1 : s.programCounter < 4096
  · rw [if_pos h1, Nat.mod_eq_of_lt (by omega), if_neg (by omega)]
  · rw [if_neg h1]

set_option maxHeartbeats 3200000 in
theorem dispatch_invalid (s : Chip8) (op : Nat) (h : ¬ DecodeValid op) :
    dispatch s op = .error (.invalidOpcode op) := by
  simp only [DecodeValid, not_or] at h
  obtain ⟨h1, h2, h3, h4, h5, h6, h7⟩ := h
  unfold dispatch
  by_cases c8 : 0x8000 ≤ op ∧ op ≤ 0x8FFF
  · repeat rw [if_neg (by omega)]
    rw [if_pos c8]
    have hn : ¬(opN op = 0x0 ∨ opN op = 0x1 ∨ opN op = 0x2 ∨ opN op = 0x3 ∨
        opN op = 0x4 ∨ opN op = 0x5 ∨ opN op = 0x6 ∨ opN op = 0x7 ∨
        opN op = 0xE) := fun hc => h4 ⟨c8.1, c8.2, hc⟩
    simp only [not_or] at hn
    obtain ⟨n0, n1, n2, n3, n4, n5, n6, n7, nE⟩ := hn
    rw [if_neg n0, if_neg n1, if_neg n2, if_neg n3, if_neg n4, if_neg n5,
      if_neg n6, if_neg n7, if_neg nE]
  · by_cases cE : 0xE000 ≤ op ∧ op ≤ 0xEFFF
    · repeat rw [if_neg (by omega)]
      rw [if_pos cE]
      have hn : ¬(opNN op = 0x9E ∨ opNN op = 0xA1) := fun hc => h6 ⟨cE.1, cE.2, hc⟩
      simp only [not_or] at hn
      rw [if_neg hn.1, if_neg hn.2]
    · by_cases cF : 0xF000 ≤ op ∧ op ≤ 0xFFFF
      · repeat rw [if_neg (by omega)]
        rw [if_pos cF]
        have hn : ¬(opNN op = 0x07 ∨ opNN op = 0x0A ∨ opNN op = 0x15 ∨
            opNN op = 0x18 ∨ opNN op = 0x1E ∨ opNN op = 0x29 ∨ opNN op = 0x33 ∨
            opNN op = 0x55 ∨ opNN op = 0x65) := fun hc => h7 ⟨cF.1, cF.2, hc⟩
        simp only [not_or] at hn
        obtain ⟨m1, m2, m3, m4, m5, m6, m7, m8, m9⟩ := hn
        rw [if_neg m1, if_neg m2, if_neg m3, if_neg m4, if_neg m5, if_neg m6,
          if_neg m7, if_neg m8, if_neg m9]
      · repeat rw [if_neg (by omega)]

theorem dispatch_call (s : Chip8) (op : Nat) (h1 : 0x2000 ≤ op) (h2 : op ≤ 0x2FFF) :
    dispatch s op = callSubroutine s (opNNN op) := by
  unfold dispatch
  repeat rw [if_neg (by omega)]
  rw [if_pos (by omega)]

theorem dispatch_draw (s : Chip8) (op : Nat) (h1 : 0xD000 ≤ op) (h2 : op ≤ 0xDFFF) :
    dispatch s op = draw s (opX op) (opY op) (opN op) := by
  unfold dispatch
  repeat rw [if_neg (by omega)]
  rw [if_pos (by omega)]

theorem dispatch_f33 (s : Chip8) (op : Nat) (h1 : 0xF000 ≤ op) (h2 : op ≤ 0xFFFF)
    (h3 : opNN op = 0x33) : dispatch s op = putVxDecimalDigitsIntoMemory s (opX op) := by
  unfold dispatch
  repeat rw [if_neg (by omega)]
  rw [if_pos (by omega), h3]
  repeat rw [if_neg (by decide)]
  rw [if_pos rfl]

theorem dispatch_f55 (s : Chip8) (op : Nat) (h1 : 0xF000 ≤ op) (h2 : op ≤ 0xFFFF)
    (h3 : opNN op = 0x55) : dispatch s op = storeVariableRegistersToMemory s (opX op) := by
  unfold dispatch
  repeat rw [if_neg (by omega)]
  rw [if_pos (by omega), h3]
  repeat rw [if_neg (by decide)]
  rw [if_pos rfl]

theorem dispatch_f65 (s : Chip8) (op : Nat) (h1 : 0xF000 ≤ op) (h2 : op ≤ 0xFFFF)
    (h3 : opNN op = 0x65) : dispatch s op = loadVariableRegistersFromMemory s (opX op) := by
  unfold dispatch
  repeat rw [if_neg (by omega)]
  rw [if_pos (by omega), h3]
  repeat rw [if_neg (by decide)]
  rw [if_pos rfl]

theorem storeRegsGo_fault (start : Nat) :
    ∀ (k i : Nat) (s : Chip8), 0 < k → 4096 ≤ start + i + (k - 1) →
      storeRegsGo start k i s = .error .outOfBounds := by
  intro k
  induction k with
  | zero =>
    intro i s h0 hb
    omega
  | succ k ih =>
    intro i s h0 hb
    simp only [storeRegsGo, MEMORY_SIZE]
    by_cases hlt : start + i < 4096
    · rw [if_pos hlt]
      exact ih (i + 1) _ (by omega) (by omega)
    · rw [if_neg hlt]

theorem loadRegsGo_fault (start : Nat) :
    ∀ (k i : Nat) (s : Chip8), 0 < k → 4096 ≤ start + i + (k - 1) →
      loadRegsGo start k i s = .error .outOfBounds := by
  intro k
  induction k with
  | zero =>
    intro i s h0 hb
    omega
  | succ k ih =>
    intro i s h0 hb
    simp only [loadRegsGo, MEMORY_SIZE]
    by_cases hlt : start + i < 4096
    · rw [if_pos hlt]
      exact ih (i + 1) _ (by omega) (by omega)
    · rw [if_neg hlt]

/-- C1: whenever a call to `execute_next_instruction` decodes an
undefined opcode, pushes with stack_pointer = 16, pops with
stack_pointer = 0, or dereferences a memory address outside [0,4096)
(through the fetch, Dxyn, Fx33, Fx55 or Fx65), the call returns a
distinguishable, catchable error value — `Fault.invalidOpcode` with the
offending opcode, or `Fault.outOfBounds` — instead of mutating state
(the `Except` result carries no partially-updated machine). -/
theorem c1_faults_surface_errors (s : Chip8) (h : C1Fault s) :
    ∃ e, executeNextInstruction s = .error e := by
  rcases h with hfetch | ⟨hpc, hrest⟩
  · refine ⟨.outOfBounds, ?_⟩
    unfold executeNextInstruction
    rw [fetchNextOpcode_fault s hfetch]
  · have hexec : executeNextInstruction s =
        dispatch { s with programCounter := (s.programCounter + 2) % 65536 }
          (fetchedWord s) := by
      unfold executeNextInstruction
      rw [fetchNextOpcode_ok s hpc]
      rfl
    rcases hrest with hinv | hcall | hret | hdraw | hf33 | hstore
    · exact ⟨.invalidOpcode (fetchedWord s),
        by rw [hexec, dispatch_invalid _ _ hinv]⟩
    · obtain ⟨hr1, hr2, hsp⟩ := hcall
      refine ⟨.outOfBounds, ?_⟩
      rw [hexec, dispatch_call _ _ hr1 hr2]
      simp only [callSubroutine, STACK_SIZE]
      rw [if_neg (by omega)]
    · obtain ⟨hop, hsp⟩ := hret
      refine ⟨.outOfBounds, ?_⟩
      rw [hexec, hop]
      show returnFromSubroutine _ = _
      simp only [returnFromSubroutine, STACK_SIZE, hsp]
      rw [if_neg (by norm_num)]
    · obtain ⟨hr1, hr2, hI⟩ := hdraw
      refine ⟨.outOfBounds, ?_⟩
      rw [hexec, dispatch_draw _ _ hr1 hr2]
      simp only [draw, MEMORY_SIZE]
      rw [if_neg (by omega)]
    · obtain ⟨hr1, hr2, hnn, hI⟩ := hf33
      refine ⟨.outOfBounds, ?_⟩
      rw [hexec, dispatch_f33 _ _ hr1 hr2 hnn]
      simp only [putVxDecimalDigitsIntoMemory, MEMORY_SIZE]
      rw [if_neg (by omega)]
    · obtain ⟨hr1, hr2, hnn, hI⟩ := hstore
      refine ⟨.outOfBounds, ?_⟩
      rcases hnn with h55 | h65
      · rw [hexec, dispatch_f55 _ _ hr1 hr2 h55]
        simp only [storeVariableRegistersToMemory]
        exact storeRegsGo_fault s.indexRegister (opX (fetchedWord s) + 1) 0 _
          (by omega) (by omega)
      · rw [hexec, dispatch_f65 _ _ hr1 hr2 h65]
        simp only [loadVariableRegistersFromMemory]
        exact loadRegsGo_fault s.indexRegister (opX (fetchedWord s) + 1) 0 _
          (by omega) (by omega)

/-- Witness for C1 at a concrete input: the freshly constructed machine
has 0x0000 at the program counter, which matches no instruction. -/
theorem c1_faults_surface_errors_witness :
    C1Fault (chip8New EmulatorType.CosmacVip (fun _ => 0)) ∧
      ∃ e, executeNextInstruction (chip8New EmulatorType.CosmacVip (fun _ => 0)) =
        .error e :=
  ⟨by decide,
   c1_faults_surface_errors (chip8New EmulatorType.CosmacVip (fun _ => 0)) (by decide)⟩
